import Mathlib

/-!
# happy: rate limiter and activity views

A shallow embedding of the store-facing logic of `cmd/message-api.go` (`main`,
the handlers, `checkRateLimit`, `logActivity`, `logActivityWithDetails`) and of
the aggregation queries of `cmd/happywatch-cgi.go` and `cmd/happywatch.go`
(`loadLiveUsers` / `runLiveMode`, `loadSummary` / `runSummary`,
`loadStudentProgress`, `loadInactiveStudents`, `runStudentProgress`,
`gatherPageData`), with the SQL statements read as list comprehensions over the
tables.

Conventions.
* Instants and stored timestamps are whole seconds (`Int`): SQLite's
  `CURRENT_TIMESTAMP` and `datetime('now', ...)` both yield the text
  `YYYY-MM-DD HH:MM:SS`, whose text order is the order of the seconds.
* A minute bucket (`time.Now().Format("2006-01-02 15:04")`) is the index of
  the minute, `now / 60`.
* A table is the list of its rows in rowid order.
* `request_stats.request_count` holds an integer: the only writer, the upsert of
  `checkRateLimit`, stores 1 or the old count plus 1.
* In `message-api.go` every statement is taken on the path where the store
  answers it (the results of `Exec` and the scan errors that the Go code drops
  are not modelled), except the two whose error the code handles: the random
  message and the insert into `user_messages`. The failing statements of the
  loaders of `happywatch-cgi.go` are modelled by `Faults`.
* A statement and the Go function that runs it are kept apart where the function
  does not return the rows of the statement: `Rows.Scan` into a `time.Time`
  fails on `MIN(timestamp)` and `MAX(timestamp)` (see `scanTime`).
* One request sees one instant; requests are handled one after the other.
* A `float64` is the rational number it stands for (see `roundFloat64`).
-/

namespace Happy

/-! ## `request_stats` and `checkRateLimit` (cmd/message-api.go) -/

/-- The constant `rateLimit = 100 // requests per minute per IP`. -/
def rateLimit : Int := 100

/-- A row of `request_stats (ip_address, minute_bucket, request_count)`. -/
structure RequestStat where
  ip_address : String
  minute_bucket : Int
  request_count : Int
deriving DecidableEq

/-- The table `request_stats`. -/
abbrev RequestStats := List RequestStat

/-- The key test `ip_address = ? AND minute_bucket = ?`. -/
def RequestStat.hasKey (r : RequestStat) (ip : String) (bucket : Int) : Bool :=
  r.ip_address == ip && r.minute_bucket == bucket

/-- The bucket text of an instant: `time.Now().Format("2006-01-02 15:04")`. -/
def minuteBucket (now : Int) : Int := now / 60

/-- The statement `SELECT request_count FROM request_stats WHERE ip_address = ? AND
minute_bucket = ?` read by `QueryRow`: the first matching row, if any. -/
def selectCount (db : RequestStats) (ip : String) (bucket : Int) : Option Int :=
  (db.find? (fun r => r.hasKey ip bucket)).map (fun r => r.request_count)

/-- The value left in `var count int` after `QueryRow(...).Scan(&count)`: the
selected count, or the zero value when no row is found (the scan error is dropped). -/
def scanCount (db : RequestStats) (ip : String) (bucket : Int) : Int :=
  (selectCount db ip bucket).getD 0

/-- The statement `INSERT INTO request_stats (...) VALUES (?, ?, 1) ON CONFLICT(ip_address,
minute_bucket) DO UPDATE SET request_count = request_count + 1`. -/
def upsertCount (db : RequestStats) (ip : String) (bucket : Int) : RequestStats :=
  if db.any (fun r => r.hasKey ip bucket) then
    db.map (fun r => if r.hasKey ip bucket then
      { r with request_count := r.request_count + 1 } else r)
  else
    db ++ [{ ip_address := ip, minute_bucket := bucket, request_count := 1 }]

/-- The method `Handler.checkRateLimit(ip)` run at instant `now`: the returned
boolean and the table afterwards. -/
def checkRateLimit (db : RequestStats) (ip : String) (now : Int) : Bool × RequestStats :=
  let bucket := minuteBucket now
  let count := scanCount db ip bucket
  if count ≥ rateLimit then
    (false, db)
  else
    (true, upsertCount db ip bucket)

/-- Successive calls of `checkRateLimit(ip)`, one after the other, at the
instants `nows`: the list of returned booleans and the final table. -/
def checkRateLimitSeq (db : RequestStats) (ip : String) : List Int → List Bool × RequestStats
  | [] => ([], db)
  | now :: nows =>
    let r := checkRateLimit db ip now
    let rest := checkRateLimitSeq r.2 ip nows
    (r.1 :: rest.1, rest.2)

/-! ### Interleaved calls

A call of `checkRateLimit` issues two statements against the store, the
`SELECT` and then (when the count read is below the limit) the upsert. Each
statement is one store operation; statements of different calls may
alternate. -/

/-- Where one call of `checkRateLimit` stands: before its `SELECT`, holding the
count it read, or returned with its result. -/
inductive CallState where
  | pending
  | fetched (count : Int)
  | returned (allowed : Bool)
deriving DecidableEq

/-- One store operation of a call for `(ip, bucket)`: a pending call runs the
`SELECT`; a call holding a count runs the comparison with `rateLimit` and, when
below it, the upsert. -/
def stepCall (db : RequestStats) (ip : String) (bucket : Int) :
    CallState → CallState × RequestStats
  | .pending => (.fetched (scanCount db ip bucket), db)
  | .fetched count =>
    if count ≥ rateLimit then (.returned false, db)
    else (.returned true, upsertCount db ip bucket)
  | .returned b => (.returned b, db)

/-- The calls in flight and the table. -/
structure Racing where
  calls : List CallState
  db : RequestStats
deriving DecidableEq

/-- Call number `i` performs its next store operation. -/
def Racing.step (ip : String) (bucket : Int) (st : Racing) (i : Nat) : Racing :=
  match st.calls[i]? with
  | none => st
  | some c =>
    let r := stepCall st.db ip bucket c
    { calls := st.calls.set i r.1, db := r.2 }

/-- A schedule: the order in which the calls perform their store operations. -/
def Racing.run (ip : String) (bucket : Int) (st : Racing) (schedule : List Nat) : Racing :=
  schedule.foldl (Racing.step ip bucket) st

/-- The number of calls that returned `true`. -/
def Racing.granted (st : Racing) : Nat :=
  st.calls.count (.returned true)

/-- Every call has returned. -/
def Racing.finished (st : Racing) : Bool :=
  st.calls.all (fun c => match c with | .returned _ => true | _ => false)

/-- The start of `k` concurrent calls on table `db`. -/
def Racing.start (k : Nat) (db : RequestStats) : Racing :=
  { calls := List.replicate k .pending, db := db }

/-- The facts kept along a schedule that started with stored count `c0`: the
stored count is `c0` plus the number of calls that returned `true`, no call holds
a count above the stored one, and a call returned `false` only once the stored
count reached `rateLimit`. -/
def Racing.Inv (ip : String) (bucket : Int) (c0 : Int) (st : Racing) : Prop :=
  scanCount st.db ip bucket = c0 + (st.granted : Int) ∧
  (∀ n, CallState.fetched n ∈ st.calls → n ≤ scanCount st.db ip bucket) ∧
  (CallState.returned false ∈ st.calls → rateLimit ≤ scanCount st.db ip bucket)

/-- The key columns of the rows: `PRIMARY KEY (ip_address, minute_bucket)` says
that this list has no duplicate. -/
def statKeys (db : RequestStats) : List (String × Int) :=
  db.map (fun r => (r.ip_address, r.minute_bucket))

/-- Calls of `checkRateLimit` one after the other, each with its own source and
instant: the returned booleans and the final table. -/
def checkRateLimitCalls (db : RequestStats) : List (String × Int) → List Bool × RequestStats
  | [] => ([], db)
  | call :: calls =>
    let r := checkRateLimit db call.1 call.2
    let rest := checkRateLimitCalls r.2 calls
    (r.1 :: rest.1, rest.2)

/-! ## `activity_log` and the views (cmd/happywatch-cgi.go, cmd/happywatch.go) -/

/-- A row of `activity_log`. The columns `name`, `session_id`, `ip_address`,
`user_agent`, `response_code` and `response_time_ms` are nullable; `timestamp`
is filled by its default `CURRENT_TIMESTAMP` on every insert of the repository. -/
structure ActivityLogRow where
  id : Int
  timestamp : Int
  endpoint : String
  name : Option String
  session_id : Option String
  ip_address : Option String
  user_agent : Option String
  response_code : Option Int
  response_time_ms : Option Int
deriving DecidableEq

/-- The table `activity_log`. -/
abbrev ActivityLog := List ActivityLogRow

/-- The condition `name IS NOT NULL AND name != ''`. -/
def ActivityLogRow.hasName (r : ActivityLogRow) : Bool :=
  match r.name with
  | some n => n != ""
  | none => false

/-- The condition `response_code >= 400` (not true on a NULL code). -/
def ActivityLogRow.isError (r : ActivityLogRow) : Bool :=
  match r.response_code with
  | some c => decide (400 ≤ c)
  | none => false

/-- The condition `timestamp >= datetime('now', '-<window> seconds')`. -/
def ActivityLogRow.since (now window : Int) (r : ActivityLogRow) : Bool :=
  decide (now - window ≤ r.timestamp)

/-- The aggregate `MAX(...)` over a group: NULL on no row. -/
def sqlMax : List Int → Option Int
  | [] => none
  | x :: xs =>
    match sqlMax xs with
    | none => some x
    | some m => some (max x m)

/-- The aggregate `MIN(...)` over a group: NULL on no row. -/
def sqlMin : List Int → Option Int
  | [] => none
  | x :: xs =>
    match sqlMin xs with
    | none => some x
    | some m => some (min x m)

/-- The keys of `GROUP BY name` over rows whose name is not NULL. -/
def groupNames (rows : ActivityLog) : List String :=
  (rows.filterMap (fun r => r.name)).dedup

/-- The rows of one `GROUP BY name` group. -/
def nameGroup (rows : ActivityLog) (n : String) : ActivityLog :=
  rows.filter (fun r => r.name == some n)

/-- The Go type `liveUser` (in `happywatch.go`: `UserActivity`). -/
structure liveUser where
  Name : String
  LastSeen : Int
  Endpoint : String
  TotalCount : Int
  ErrorCount : Int
deriving DecidableEq

/-- A row of the subquery `stats` of the live query. -/
structure LiveStats where
  name : String
  max_timestamp : Option Int
  total_count : Int
  error_count : Int
deriving DecidableEq

/-- The subquery `SELECT name, MAX(timestamp) as max_timestamp, COUNT(*) as total_count,
SUM(CASE WHEN response_code >= 400 THEN 1 ELSE 0 END) as error_count FROM activity_log
WHERE name IS NOT NULL AND name != '' AND timestamp >= datetime('now', '-1 hour')
GROUP BY name`, with the length of the window in seconds as `window`. -/
def liveStats (window : Int) (log : ActivityLog) (now : Int) : List LiveStats :=
  let rows := log.filter (fun r => r.hasName && r.since now window)
  (groupNames rows).map (fun n =>
    let g := nameGroup rows n
    { name := n
      max_timestamp := sqlMax (g.map (fun r => r.timestamp))
      total_count := (g.length : Int)
      error_count := ((g.filter (fun r => r.isError)).length : Int) })

/-- One pair of the join `activity_log a INNER JOIN stats ON a.name = stats.name AND
a.timestamp = stats.max_timestamp WHERE a.name IS NOT NULL AND a.name != ''`: the
selected columns when the pair matches. -/
def liveJoin (a : ActivityLogRow) (s : LiveStats) : Option liveUser :=
  match a.name with
  | some n =>
    if n = s.name ∧ some a.timestamp = s.max_timestamp ∧ a.hasName = true then
      some { Name := n, LastSeen := a.timestamp, Endpoint := a.endpoint,
             TotalCount := s.total_count, ErrorCount := s.error_count }
    else none
  | none => none

/-- The live query of `loadLiveUsers` and `runLiveMode` with the window length
(in seconds) as a parameter: the join of `activity_log` with `stats`, then
`ORDER BY a.timestamp DESC`. The order among rows of equal timestamp is not fixed
by the statement; here such rows keep the order of the log. -/
def liveUsersWithin (window : Int) (log : ActivityLog) (now : Int) : List liveUser :=
  let stats := liveStats window log now
  let joined := log.flatMap (fun a => stats.filterMap (fun s => liveJoin a s))
  joined.insertionSort (fun x y => x.LastSeen ≥ y.LastSeen)

/-- The rows returned by `loadLiveUsers(db)` (and read by `runLiveMode`) at instant
`now`, when the query succeeds: the window is `'-1 hour'`. Every row is scanned:
`a.timestamp` keeps its declared type DATETIME, which the driver hands to `Scan`
as a `time.Time`. -/
def loadLiveUsers (log : ActivityLog) (now : Int) : List liveUser :=
  liveUsersWithin 3600 log now

/-- The Go type `endpointCount`. -/
structure endpointCount where
  Endpoint : String
  Count : Int
deriving DecidableEq

/-- The integer and list results of `loadSummary`. -/
structure Summary where
  totalRequests : Int
  uniqueStudents : Int
  endpointCounts : List endpointCount
  errorCount : Int
deriving DecidableEq

/-- The queries of `loadSummary(db)` (and of `runSummary` without `-since`) at instant
`now`, when they succeed, all under `WHERE timestamp >= datetime('now', '-2 hours')`:
`COUNT(*)`; `COUNT(DISTINCT name) ... AND name IS NOT NULL`; `endpoint, COUNT(*) ...
GROUP BY endpoint ORDER BY count DESC`; `COUNT(*) ... AND response_code >= 400`. -/
def loadSummary (log : ActivityLog) (now : Int) : Summary :=
  let rows := log.filter (fun r => r.since now 7200)
  { totalRequests := (rows.length : Int)
    uniqueStudents := ((groupNames rows).length : Int)
    endpointCounts :=
      (((rows.map (fun r => r.endpoint)).dedup).map (fun e =>
        ({ Endpoint := e
           Count := ((rows.filter (fun r => r.endpoint == e)).length : Int) } : endpointCount))
      ).insertionSort (fun x y => x.Count ≥ y.Count)
    errorCount := ((rows.filter (fun r => r.isError)).length : Int) }

/-! ### The error rate of `loadSummary`: `float64` arithmetic

A finite `float64` is the rational number it stands for. An operation yields the
exact result rounded to the nearest `float64`, ties to the even significand
(IEEE 754 binary64, 53 significant bits). The exponent range is left
unbounded: the values met here, quotients of counts below `2 ^ 63` and their
products with 100, are far from overflow and from the subnormal numbers. -/

/-- The integer nearest to `q`, the even one of the two when `q` lies half-way. -/
def roundHalfEven (q : ℚ) : ℤ :=
  if q - ⌊q⌋ < 1 / 2 then ⌊q⌋
  else if 1 / 2 < q - ⌊q⌋ then ⌊q⌋ + 1
  else if ⌊q⌋ % 2 = 0 then ⌊q⌋ else ⌊q⌋ + 1

/-- The `float64` nearest to `x`: with `2 ^ e ≤ |x| < 2 ^ (e + 1)`, the multiple of
`2 ^ (e - 52)` nearest to `x`. -/
def roundFloat64 (x : ℚ) : ℚ :=
  if x = 0 then 0
  else roundHalfEven (x / 2 ^ (Int.log 2 |x| - 52)) * 2 ^ (Int.log 2 |x| - 52)

/-- The lines `if totalRequests > 0 { errorRate = float64(errorCount) /
float64(totalRequests) * 100 }` of `loadSummary` and `runSummary`; the rate stays
at its zero value otherwise. -/
def errorRate (errorCount totalRequests : Int) : ℚ :=
  if totalRequests > 0 then
    roundFloat64 (roundFloat64 (roundFloat64 errorCount / roundFloat64 totalRequests) * 100)
  else 0

/-- The result `errorRate` of `loadSummary(db)` at instant `now`. -/
def summaryErrorRate (log : ActivityLog) (now : Int) : ℚ :=
  errorRate (loadSummary log now).errorCount (loadSummary log now).totalRequests

/-- The Go type `studentProgress`. -/
structure studentProgress where
  Name : String
  TotalRequests : Int
  FirstSeen : Int
  LastSeen : Int
  Sessions : Int
deriving DecidableEq

/-- The rows of the statement of `loadStudentProgress` and `runStudentProgress` at
instant `now`, the two times in seconds: `SELECT name, COUNT(*), MIN(timestamp),
MAX(timestamp), COUNT(DISTINCT session_id) FROM activity_log WHERE name IS NOT NULL AND
timestamp >= datetime('now', '-4 hours') GROUP BY name ORDER BY total_requests DESC`. -/
def studentProgressQuery (log : ActivityLog) (now : Int) : List studentProgress :=
  let rows := log.filter (fun r => r.name.isSome && r.since now 14400)
  ((groupNames rows).map (fun n =>
    let g := nameGroup rows n
    ({ Name := n
       TotalRequests := (g.length : Int)
       FirstSeen := (sqlMin (g.map (fun r => r.timestamp))).getD 0
       LastSeen := (sqlMax (g.map (fun r => r.timestamp))).getD 0
       Sessions := (((g.filterMap (fun r => r.session_id)).dedup).length : Int) }
      : studentProgress))
  ).insertionSort (fun x y => x.TotalRequests ≥ y.TotalRequests)

/-- The Go type `inactiveStudent`. -/
structure inactiveStudent where
  Name : String
  LastSeen : Int
deriving DecidableEq

/-- The inactivity query with the threshold (in seconds) as a parameter:
`SELECT name, MAX(timestamp) as last_seen FROM activity_log WHERE name IS NOT NULL
GROUP BY name HAVING last_seen < datetime('now', '-15 minutes') ORDER BY last_seen DESC`. -/
def inactiveSince (threshold : Int) (log : ActivityLog) (now : Int) : List inactiveStudent :=
  let rows := log.filter (fun r => r.name.isSome)
  ((groupNames rows).filterMap (fun n =>
    match sqlMax ((nameGroup rows n).map (fun r => r.timestamp)) with
    | some m =>
      if m < now - threshold then some ({ Name := n, LastSeen := m } : inactiveStudent)
      else none
    | none => none)
  ).insertionSort (fun x y => x.LastSeen ≥ y.LastSeen)

/-- The statement of `loadInactiveStudents` and of the second loop of
`runStudentProgress` at instant `now`: the inactivity query with its threshold
`'-15 minutes'`. -/
def inactiveStudentsQuery (log : ActivityLog) (now : Int) : List inactiveStudent :=
  inactiveSince 900 log now

/-! ### Scanning the rows

The statements yield a time as TEXT. The driver (go-sqlite3) turns such a text
into a `time.Time` only for a column whose declared type is DATE, DATETIME or
TIMESTAMP, as `a.timestamp` in the live query, whose rows `loadLiveUsers` and
`runLiveMode` therefore scan in full. The value of an expression, as
`MIN(timestamp)` and `MAX(timestamp)`, has no declared type and reaches
`Rows.Scan` as a string, which `database/sql` does not store in a `*time.Time`:
that `Scan` fails. -/

/-- The seconds of the zero `time.Time` (1 January of year 1, 00:00:00 UTC). -/
def zeroTime : Int := -62135596800

/-- `Rows.Scan` of a TEXT time into a `*time.Time`: the time for a column with a
declared time type, an error for the value of an expression. -/
def scanTime (declared : Bool) (seconds : Int) : Option Int :=
  if declared then some seconds else none

/-- The loop of the loaders, `for rows.Next() { if err := rows.Scan(...); err != nil
{ return nil, err }; rows = append(rows, r) }`: the scanned rows, or no row and an
error (`true`) when a `Scan` fails. -/
def scanRows {α β : Type} (scan : α → Option β) : List α → List β × Bool
  | [] => ([], false)
  | r :: rs =>
    match scan r with
    | none => ([], true)
    | some x =>
      let rest := scanRows scan rs
      if rest.2 then ([], true) else (x :: rest.1, false)

/-- The call `rows.Scan(&s.Name, &s.TotalRequests, &s.FirstSeen, &s.LastSeen,
&s.Sessions)` of `loadStudentProgress` on one row of its statement. -/
def scanStudentProgress (r : studentProgress) : Option studentProgress :=
  match scanTime false r.FirstSeen, scanTime false r.LastSeen with
  | some f, some l => some { r with FirstSeen := f, LastSeen := l }
  | _, _ => none

/-- The function `loadStudentProgress(db)` at instant `now`, its statement
answered by the store: the rows and whether `err` is not nil. -/
def loadStudentProgress (log : ActivityLog) (now : Int) : List studentProgress × Bool :=
  scanRows scanStudentProgress (studentProgressQuery log now)

/-- The call `rows.Scan(&s.Name, &s.LastSeen)` of `loadInactiveStudents` on one row
of its statement. -/
def scanInactiveStudent (r : inactiveStudent) : Option inactiveStudent :=
  match scanTime false r.LastSeen with
  | some t => some { r with LastSeen := t }
  | none => none

/-- The function `loadInactiveStudents(db)` at instant `now`, its statement (the
inactivity query with `'-15 minutes'`) answered by the store: the rows and
whether `err` is not nil. -/
def loadInactiveStudents (log : ActivityLog) (now : Int) : List inactiveStudent × Bool :=
  scanRows scanInactiveStudent (inactiveStudentsQuery log now)

/-- The variables `name`, `totalRequests`, `firstSeen`, `lastSeen`, `sessions` that
one turn of the first loop of `runStudentProgress` hands to `Fprintf`: they start
at their zero values, `rows.Scan(&name, &totalRequests, &firstSeen, &lastSeen,
&sessions)` fills them in this order and stops at the first it cannot store, and
its error is dropped. (`Fprintf` then prints `truncate(name, 20)` and the times
as `15:04`.) -/
def printedProgress (r : studentProgress) : studentProgress :=
  match scanTime false r.FirstSeen with
  | none =>
    { Name := r.Name, TotalRequests := r.TotalRequests, FirstSeen := zeroTime,
      LastSeen := zeroTime, Sessions := 0 }
  | some f =>
    match scanTime false r.LastSeen with
    | none =>
      { Name := r.Name, TotalRequests := r.TotalRequests, FirstSeen := f,
        LastSeen := zeroTime, Sessions := 0 }
    | some l => { r with FirstSeen := f, LastSeen := l }

/-- The variables `name` and `lastSeen` that one turn of the second loop of
`runStudentProgress` prints (the time as `time.Since(lastSeen)`):
`rows.Scan(&name, &lastSeen)` with its error dropped. -/
def printedInactive (r : inactiveStudent) : inactiveStudent :=
  match scanTime false r.LastSeen with
  | none => { Name := r.Name, LastSeen := zeroTime }
  | some t => { r with LastSeen := t }

/-- The function `runStudentProgress(db)` at instant `now`, its statements answered
by the store: the values printed in the lines of the progress table and in the
lines of the inactive list (threshold `'-15 minutes'`). -/
def runStudentProgress (log : ActivityLog) (now : Int) :
    List studentProgress × List inactiveStudent :=
  ((studentProgressQuery log now).map printedProgress,
   (inactiveStudentsQuery log now).map printedInactive)

/-! ### The order of the live rows -/

/-- The rows of the join of the live query before `ORDER BY`, each with the `id` of
its `activity_log` row `a`. -/
def liveJoined (window : Int) (log : ActivityLog) (now : Int) : List (Int × liveUser) :=
  let stats := liveStats window log now
  log.flatMap (fun a => stats.filterMap (fun s => (liveJoin a s).map (fun u => (a.id, u))))

/-- What `ORDER BY a.timestamp DESC` asks of the returned rows: no row comes before
a row of a later timestamp. -/
def OrderedByTimestamp (rows : List (Int × liveUser)) : Prop :=
  rows.Pairwise (fun x y => x.2.LastSeen ≥ y.2.LastSeen)

/-- The lists that the live query may return: the joined rows in an order that
`ORDER BY a.timestamp DESC` allows. -/
def IsLiveAnswer (window : Int) (log : ActivityLog) (now : Int)
    (rows : List (Int × liveUser)) : Prop :=
  rows.Perm (liveJoined window log now) ∧ OrderedByTimestamp rows

/-- The order of `ORDER BY a.timestamp DESC` compares any two rows. -/
instance lastSeenTotal : IsTotal liveUser (fun x y => x.LastSeen ≥ y.LastSeen) :=
  ⟨fun a b => le_total b.LastSeen a.LastSeen⟩

/-- The order of `ORDER BY a.timestamp DESC` is transitive. -/
instance lastSeenTrans : IsTrans liveUser (fun x y => x.LastSeen ≥ y.LastSeen) :=
  ⟨fun _ _ _ hab hbc => le_trans hbc hab⟩

/-! ### Failing queries and the page -/

/-- The statement of `loadSummary` at which the store fails: the first `QueryRow`,
the second, the `Query` of the endpoints, the `Scan` of its row number `k` (from
0), its `rows.Err()`, or the last `QueryRow`. -/
inductive SummaryFault where
  | total
  | students
  | endpoints
  | endpointScan (k : Nat)
  | endpointRows
  | errors
deriving DecidableEq

/-- The named results of `loadSummary`: `totalRequests, uniqueStudents,
endpointCounts, errorRate, errorCount` and whether `err` is not nil. -/
structure SummaryResult where
  totalRequests : Int
  uniqueStudents : Int
  endpointCounts : List endpointCount
  errorRate : ℚ
  errorCount : Int
  failed : Bool
deriving DecidableEq

/-- The function `loadSummary(db)` with its error paths: every named result starts
at its zero value, each statement that succeeds fills its result, and a failing
statement ends the function with the bare `return`. -/
def loadSummaryWith (fault : Option SummaryFault) (log : ActivityLog) (now : Int) :
    SummaryResult :=
  let ok := loadSummary log now
  let r0 : SummaryResult :=
    { totalRequests := 0, uniqueStudents := 0, endpointCounts := [], errorRate := 0,
      errorCount := 0, failed := true }
  if fault = some .total then r0
  else
    let r1 := { r0 with totalRequests := ok.totalRequests }
    if fault = some .students then r1
    else
      let r2 := { r1 with uniqueStudents := ok.uniqueStudents }
      if fault = some .endpoints then r2
      else
        match fault with
        | some (.endpointScan k) =>
          if k < ok.endpointCounts.length then
            { r2 with endpointCounts := ok.endpointCounts.take k }
          else
            { r2 with endpointCounts := ok.endpointCounts, errorCount := ok.errorCount,
                      errorRate := errorRate ok.errorCount ok.totalRequests, failed := false }
        | some .endpointRows => { r2 with endpointCounts := ok.endpointCounts }
        | some .errors => { r2 with endpointCounts := ok.endpointCounts }
        | _ =>
          { r2 with endpointCounts := ok.endpointCounts, errorCount := ok.errorCount,
                    errorRate := errorRate ok.errorCount ok.totalRequests, failed := false }

/-- The function `loadLiveUsers(db)` with its error paths (`return nil, err` at the
query, at a scan and at `rows.Err()`): the rows and whether `err` is not nil. -/
def loadLiveUsersWith (fails : Bool) (log : ActivityLog) (now : Int) : List liveUser × Bool :=
  if fails then ([], true) else (loadLiveUsers log now, false)

/-- The function `loadStudentProgress(db)` with its error paths (`return nil, err`),
the statement failing or not. -/
def loadStudentProgressWith (fails : Bool) (log : ActivityLog) (now : Int) :
    List studentProgress × Bool :=
  if fails then ([], true) else loadStudentProgress log now

/-- The function `loadInactiveStudents(db)` with its error paths (`return nil, err`),
the statement failing or not. -/
def loadInactiveStudentsWith (fails : Bool) (log : ActivityLog) (now : Int) :
    List inactiveStudent × Bool :=
  if fails then ([], true) else loadInactiveStudents log now

/-- The Go type `pageData`. -/
structure pageData where
  GeneratedAt : Int
  LiveUsers : List liveUser
  SummaryTotal : Int
  SummaryStudents : Int
  SummaryEndpoints : List endpointCount
  SummaryErrorRate : ℚ
  SummaryErrorCount : Int
  StudentProgress : List studentProgress
  InactiveStudents : List inactiveStudent
deriving DecidableEq

/-- The zero value `pageData{}`. -/
def emptyPage : pageData :=
  { GeneratedAt := 0, LiveUsers := [], SummaryTotal := 0, SummaryStudents := 0,
    SummaryEndpoints := [], SummaryErrorRate := 0, SummaryErrorCount := 0,
    StudentProgress := [], InactiveStudents := [] }

/-- Which statements of the four loaders fail during one page. -/
structure Faults where
  liveUsers : Bool
  summary : Option SummaryFault
  studentProgress : Bool
  inactiveStudents : Bool
deriving DecidableEq

/-- The store answers every statement. -/
def noFaults : Faults :=
  { liveUsers := false, summary := none, studentProgress := false, inactiveStudents := false }

/-- The function `gatherPageData(db)`: the four loaders in turn on the same log at
the same instant, `pageData{}` with the error as soon as one fails. -/
def gatherPageData (faults : Faults) (log : ActivityLog) (now : Int) : pageData × Bool :=
  let live := loadLiveUsersWith faults.liveUsers log now
  if live.2 then (emptyPage, true)
  else
    let summary := loadSummaryWith faults.summary log now
    if summary.failed then (emptyPage, true)
    else
      let students := loadStudentProgressWith faults.studentProgress log now
      if students.2 then (emptyPage, true)
      else
        let inactive := loadInactiveStudentsWith faults.inactiveStudents log now
        if inactive.2 then (emptyPage, true)
        else
          ({ GeneratedAt := now, LiveUsers := live.1,
             SummaryTotal := summary.totalRequests,
             SummaryStudents := summary.uniqueStudents,
             SummaryEndpoints := summary.endpointCounts,
             SummaryErrorRate := summary.errorRate,
             SummaryErrorCount := summary.errorCount,
             StudentProgress := students.1, InactiveStudents := inactive.1 }, false)

/-! ## Sample tables -/

/-- A row of `activity_log` with the given id, timestamp, endpoint, name and
response code, the other columns NULL. -/
def logRow (id ts : Int) (ep : String) (n : Option String) (code : Option Int) :
    ActivityLogRow :=
  { id := id, timestamp := ts, endpoint := ep, name := n, session_id := none,
    ip_address := none, user_agent := none, response_code := code,
    response_time_ms := none }

/-- Alice at `now - 50 min` (status 200) and at `now - 5 min` (status 404), for
`now = 10000`. -/
def aliceLog : ActivityLog :=
  [logRow 1 7000 "/message" (some "Alice") (some 200),
   logRow 2 9700 "/messages" (some "Alice") (some 404)]

/-- Two requests of Alice logged within the same second. -/
def tiedLog : ActivityLog :=
  [logRow 1 9700 "/message" (some "Alice") (some 200),
   logRow 2 9700 "/messages" (some "Alice") (some 200)]

/-- Bob last seen at `now - 20 min`, Alice at `now - 5 min`, for `now = 10000`. -/
def bobLog : ActivityLog :=
  [logRow 1 8800 "/message" (some "Bob") (some 200),
   logRow 2 9700 "/message" (some "Alice") (some 200)]

/-- One row whose name is the empty string and one whose name is NULL (inserted by
hand: the handlers store no empty name). -/
def emptyNameLog : ActivityLog :=
  [logRow 1 9700 "/message" (some "") (some 200),
   logRow 2 9700 "/status" none (some 200)]

/-- Three requests in the window, one of them answered with an error. -/
def thirdLog : ActivityLog :=
  [logRow 1 9000 "/message" (some "Alice") (some 200),
   logRow 2 9100 "/message" (some "Bob") (some 500),
   logRow 3 9200 "/status" none (some 200)]

/-- Alice and Bob each seen once, in the same second. -/
def twoTiedLog : ActivityLog :=
  [logRow 1 9700 "/message" (some "Alice") (some 200),
   logRow 2 9700 "/message" (some "Bob") (some 200)]

/-! ## Request handling (cmd/message-api.go) -/

/-- The constant `maxNameLen`. -/
def maxNameLen : Nat := 50

/-- The constant `maxMessageLen`. -/
def maxMessageLen : Nat := 500

/-- A row of `user_messages` (without `created_at`). -/
structure UserMessage where
  message_id : String
  from_user : String
  to_user : String
  message : String
  ip_address : String
deriving DecidableEq

/-- The tables of the database. -/
structure Store where
  messages : List String
  user_messages : List UserMessage
  activity_log : ActivityLog
  request_stats : RequestStats
deriving DecidableEq

/-- The Go type `PostMessageRequest`. -/
structure PostMessageRequest where
  From : String
  To : String
  Message : String
  SessionID : String
deriving DecidableEq

/-- One CGI request as `main` and the handlers read it, with what the process
draws from outside the database: `REQUEST_METHOD`, `SCRIPT_NAME`, the result of
`url.ParseQuery(QUERY_STRING)` (`none` on a parse error), the result of decoding
the body as JSON (`none` on an error), `REMOTE_ADDR`, `HTTP_USER_AGENT`, the
instant of the request (seconds, UTC), the offset of the local time zone of the
process from UTC at that instant (seconds), the row that `ORDER BY RANDOM()
LIMIT 1` picks, the identifier that `generateMessageID` draws and the elapsed
milliseconds. -/
structure Request where
  method : String
  scriptName : String
  query : Option (List (String × String))
  body : Option PostMessageRequest
  remoteAddr : String
  userAgent : String
  now : Int
  zoneOffset : Int
  pick : Nat
  messageID : String
  elapsed : Int
deriving DecidableEq

/-- The body written by `sendJSON`: a `MessageResponse`, an `ErrorResponse`, the
map of `handlePostMessage` or the map of `handleStatus`. -/
inductive Body where
  | message (Name Message : String) (Timestamp : Int) (MessageID : String) (Sequence : Int)
  | error (Error : String) (Timestamp : Int)
  | delivered (message_id : String) (timestamp : Int)
  | status (requests_today : Int)
deriving DecidableEq

/-- The status code and body written to the client. -/
structure Response where
  code : Int
  body : Body
deriving DecidableEq

/-- The method `url.Values.Get`: the first value of the key, or the empty string. -/
def valuesGet (values : List (String × String)) (key : String) : String :=
  match values.find? (fun kv => kv.1 == key) with
  | some kv => kv.2
  | none => ""

/-- The endpoint `main` extracts from `SCRIPT_NAME`: `/v1/status` becomes `/status`. -/
def endpointOf (scriptName : String) : String :=
  match scriptName.data with
  | '/' :: 'v' :: '1' :: '/' :: rest => "/" ++ String.mk rest
  | _ => scriptName

/-- The next value of `id INTEGER PRIMARY KEY AUTOINCREMENT` (no row is ever deleted). -/
def nextId (log : ActivityLog) : Int :=
  (sqlMax (log.map (fun r => r.id))).getD 0 + 1

/-- The method `Handler.logActivity(endpoint, statusCode, responseTimeMs)`: one insert
with the columns `endpoint, ip_address, user_agent, response_code, response_time_ms`. -/
def logActivity (log : ActivityLog) (rq : Request) (endpoint : String)
    (statusCode responseTimeMs : Int) : ActivityLog :=
  log ++ [{ id := nextId log, timestamp := rq.now, endpoint := endpoint, name := none,
            session_id := none, ip_address := some rq.remoteAddr,
            user_agent := some rq.userAgent, response_code := some statusCode,
            response_time_ms := some responseTimeMs }]

/-- The method `Handler.logActivityWithDetails(endpoint, name, sessionID, ip,
statusCode)`: one insert with the columns `endpoint, name, session_id, ip_address,
user_agent, response_code`; the Go strings are stored as they are, the empty
string included. -/
def logActivityWithDetails (log : ActivityLog) (rq : Request) (endpoint name sessionID ip : String)
    (statusCode : Int) : ActivityLog :=
  log ++ [{ id := nextId log, timestamp := rq.now, endpoint := endpoint, name := some name,
            session_id := some sessionID, ip_address := some ip,
            user_agent := some rq.userAgent, response_code := some statusCode,
            response_time_ms := none }]

/-- The statement `SELECT message FROM messages ORDER BY RANDOM() LIMIT 1`: no row
(an error of `Scan`) on an empty table. -/
def randomMessage (messages : List String) (pick : Nat) : Option String :=
  messages[pick % messages.length]?

/-- The statement `SELECT COUNT(*) FROM activity_log WHERE name = ? AND endpoint = ?`
behind the sequence number. -/
def countNamed (log : ActivityLog) (name endpoint : String) : Int :=
  ((log.filter (fun r => r.name == some name && r.endpoint == endpoint)).length : Int)

/-- The common body of `handleGetMessage` (key `name`, endpoint `/message`) and
`handleGetMessages` (key `recipient`, endpoint `/messages`), which differ in
these two strings and in the texts of their errors. -/
def handleGet (key endpoint keyRequired tooLong : String) (st : Store) (rq : Request) :
    Response × Store :=
  match rq.query with
  | none => ({ code := 400, body := .error "Invalid query string" rq.now }, st)
  | some values =>
    let name := valuesGet values key
    if name = "" then
      ({ code := 400, body := .error keyRequired rq.now }, st)
    else if name.utf8ByteSize > maxNameLen then
      ({ code := 400, body := .error tooLong rq.now }, st)
    else
      let sessionID := valuesGet values "session_id"
      let ip := rq.remoteAddr
      let limit := checkRateLimit st.request_stats ip rq.now
      let st1 := { st with request_stats := limit.2 }
      if limit.1 = false then
        ({ code := 429, body := .error "Rate limit exceeded" rq.now }, st1)
      else
        match randomMessage st1.messages rq.pick with
        | none => ({ code := 500, body := .error "Internal server error" rq.now }, st1)
        | some message =>
          let sequence := countNamed st1.activity_log name endpoint + 1
          let log := logActivityWithDetails st1.activity_log rq endpoint name sessionID ip 200
          ({ code := 200, body := .message name message rq.now rq.messageID sequence },
           { st1 with activity_log := log })

/-- The method `Handler.handleGetMessage`. -/
def handleGetMessage (st : Store) (rq : Request) : Response × Store :=
  handleGet "name" "/message" "name parameter required" "name too long" st rq

/-- The method `Handler.handleGetMessages`. -/
def handleGetMessages (st : Store) (rq : Request) : Response × Store :=
  handleGet "recipient" "/messages" "recipient parameter required" "recipient name too long"
    st rq

/-- Whether the text `w` occurs in `s` (`strings.Contains`). -/
def containsText (w : List Char) : List Char → Bool
  | [] => w.isEmpty
  | c :: cs => w.isPrefixOf (c :: cs) || containsText w cs

/-- The function `unicode.ToLower` as far as it produces ASCII letters: besides
`A` to `Z`, the runes U+0130 (to `i`) and U+212A (to `k`) are the only ones whose
lower case is an ASCII letter. Every other rune is kept as it is here; its lower
case is not ASCII, so it does not change where an ASCII word occurs. -/
def toLowerRune (c : Char) : Char :=
  if c.toNat = 0x130 then 'i'
  else if c.toNat = 0x212A then 'k'
  else c.toLower

/-- The function `isPositive`: no word of the list occurs in
`strings.ToLower(message)`. -/
def isPositive (message : String) : Bool :=
  ["hate", "stupid", "idiot", "bad", "terrible", "awful", "suck", "dumb"].all
    (fun word => !(containsText word.data (message.data.map toLowerRune)))

/-- The method `Handler.handlePostMessage`. The insert into `user_messages` fails
when the drawn `message_id`, the primary key, is already stored. -/
def handlePostMessage (st : Store) (rq : Request) : Response × Store :=
  match rq.body with
  | none => ({ code := 400, body := .error "Invalid JSON" rq.now }, st)
  | some req =>
    if req.From = "" ∨ req.To = "" ∨ req.Message = "" then
      ({ code := 400, body := .error "from, to, and message are required" rq.now }, st)
    else if req.Message.utf8ByteSize > maxMessageLen then
      ({ code := 400, body := .error "message too long" rq.now }, st)
    else if isPositive req.Message = false then
      ({ code := 400, body := .error "message must be positive" rq.now }, st)
    else
      let ip := rq.remoteAddr
      let messageID := rq.messageID
      if st.user_messages.any (fun m => m.message_id == messageID) then
        ({ code := 500, body := .error "Internal server error" rq.now }, st)
      else
        let row : UserMessage :=
          { message_id := messageID, from_user := req.From, to_user := req.To,
            message := req.Message, ip_address := ip }
        let st1 := { st with user_messages := st.user_messages ++ [row] }
        let log := logActivityWithDetails st1.activity_log rq "/message" req.From req.SessionID
          ip 201
        ({ code := 201, body := .delivered messageID rq.now }, { st1 with activity_log := log })

/-- The method `Handler.handleStatus`: `requests_today` is `SELECT COUNT(*) FROM
activity_log WHERE date(timestamp) = ?` with `time.Now().Format("2006-01-02")`,
the rows whose UTC day is the day that the local clock of the process shows. -/
def handleStatus (st : Store) (rq : Request) : Response × Store :=
  ({ code := 200,
     body := .status ((st.activity_log.filter
       (fun r => r.timestamp / 86400 == (rq.now + rq.zoneOffset) / 86400)).length : Int) }, st)

/-- The method `Handler.handleNotFound`. -/
def handleNotFound (st : Store) (rq : Request) : Response × Store :=
  ({ code := 404, body := .error "Endpoint not found" rq.now }, st)

/-- The route taken by the `switch` of `main`. -/
def route (st : Store) (rq : Request) : Response × Store :=
  let endpoint := endpointOf rq.scriptName
  if rq.method = "GET" ∧ endpoint = "/message" then handleGetMessage st rq
  else if rq.method = "POST" ∧ endpoint = "/message" then handlePostMessage st rq
  else if rq.method = "GET" ∧ endpoint = "/messages" then handleGetMessages st rq
  else if rq.method = "GET" ∧ endpoint = "/status" then handleStatus st rq
  else handleNotFound st rq

/-- The function `main` on one request: the route, then `logActivity(endpoint,
statusCode, elapsed)`. -/
def handleRequest (st : Store) (rq : Request) : Response × Store :=
  let r := route st rq
  let log := logActivity r.2.activity_log rq (endpointOf rq.scriptName) r.1.code rq.elapsed
  (r.1, { r.2 with activity_log := log })

/-- Requests handled one after the other: the responses and the final store. -/
def handleAll (st : Store) : List Request → List Response × Store
  | [] => ([], st)
  | rq :: rqs =>
    let r := handleRequest st rq
    let rest := handleAll r.2 rqs
    (r.1 :: rest.1, rest.2)

/-- No row of the log stores the empty string as its name. -/
def NoEmptyName (log : ActivityLog) : Prop :=
  ∀ r ∈ log, r.name ≠ some ""

/-- The request is routed to `handleGetMessage`. -/
def Request.isGetMessage (rq : Request) : Bool :=
  decide (rq.method = "GET" ∧ endpointOf rq.scriptName = "/message")

/-- The request is routed to `handlePostMessage`. -/
def Request.isPostMessage (rq : Request) : Bool :=
  decide (rq.method = "POST" ∧ endpointOf rq.scriptName = "/message")

/-- The value of the query parameter `name` (empty when the query does not parse). -/
def Request.queryName (rq : Request) : String :=
  match rq.query with
  | some values => valuesGet values "name"
  | none => ""

/-- The field `from` of the decoded body (empty when the body does not decode). -/
def Request.sender (rq : Request) : String :=
  match rq.body with
  | some req => req.From
  | none => ""

/-- A `GET /message` for `name` answered with status 200. -/
def servedGet (name : String) (rq : Request) (resp : Response) : Bool :=
  rq.isGetMessage && (resp.code == 200 && rq.queryName == name)

/-- A `POST /message` sent in `name` (its `from`) answered with status 201. -/
def deliveredPost (name : String) (rq : Request) (resp : Response) : Bool :=
  rq.isPostMessage && (resp.code == 201 && rq.sender == name)

/-- How many of the requests, handled one after the other from `st`, satisfy `p`
together with their response. -/
def countHandled (p : Request → Response → Bool) (st : Store) : List Request → Int
  | [] => 0
  | rq :: rqs =>
    let r := handleRequest st rq
    (if p rq r.1 then 1 else 0) + countHandled p r.2 rqs

/-- The field `Sequence` of a `MessageResponse` body. -/
def Response.sequence (resp : Response) : Option Int :=
  match resp.body with
  | .message _ _ _ _ s => some s
  | _ => none

/-- A database with one message and nothing logged. -/
def seedStore : Store :=
  { messages := ["You are doing great!"], user_messages := [], activity_log := [],
    request_stats := [] }

/-- The same database once the caller `1.2.3.4` has used its 100 requests of the
minute of instant 10000. -/
def fullBucketStore : Store :=
  { seedStore with request_stats := [⟨"1.2.3.4", 166, 100⟩] }

/-- The request `GET /v1/message?name=Alice`, without `session_id`. -/
def getMessageAlice : Request :=
  { method := "GET", scriptName := "/v1/message", query := some [("name", "Alice")],
    body := none, remoteAddr := "1.2.3.4", userAgent := "curl", now := 10000,
    zoneOffset := 0, pick := 0, messageID := "msg_01", elapsed := 3 }

/-- The request `POST /v1/message` from Alice to Bob. -/
def postFromAlice : Request :=
  { method := "POST", scriptName := "/v1/message", query := some [],
    body := some { From := "Alice", To := "Bob", Message := "You are great", SessionID := "" },
    remoteAddr := "1.2.3.4", userAgent := "curl", now := 10000, zoneOffset := 0, pick := 0,
    messageID := "msg_02", elapsed := 3 }

/-- The request `GET /v1/message?name=Alice&session_id=s1`. -/
def getMessageAliceSession : Request :=
  { method := "GET", scriptName := "/v1/message",
    query := some [("name", "Alice"), ("session_id", "s1")],
    body := none, remoteAddr := "1.2.3.4", userAgent := "curl", now := 10000,
    zoneOffset := 0, pick := 0, messageID := "msg_04", elapsed := 3 }

/-- The request `GET /v1/message?name=`, with an empty name. -/
def getMessageNoName : Request :=
  { method := "GET", scriptName := "/v1/message", query := some [("name", "")],
    body := none, remoteAddr := "1.2.3.4", userAgent := "curl", now := 10000,
    zoneOffset := 0, pick := 0, messageID := "msg_05", elapsed := 3 }

/-- The request `GET /v1/status`. -/
def getStatus : Request :=
  { method := "GET", scriptName := "/v1/status", query := some [], body := none,
    remoteAddr := "1.2.3.4", userAgent := "curl", now := 10000, zoneOffset := 0, pick := 0,
    messageID := "msg_03", elapsed := 1 }

/-! ## Proofs -/

set_option maxRecDepth 100000

/-! ### The rate limiter -/

/-- The `DO UPDATE` arm applied to one row. -/
theorem find?_bump (db : RequestStats) (ip : String) (b : Int) :
    (db.map (fun r => if r.hasKey ip b then
        { r with request_count := r.request_count + 1 } else r)).find? (fun r => r.hasKey ip b)
      = (db.find? (fun r => r.hasKey ip b)).map
          (fun r => { r with request_count := r.request_count + 1 }) := by
  induction db with
  | nil => rfl
  | cons r db ih =>
    cases hr : r.hasKey ip b with
    | true =>
      have hk : RequestStat.hasKey { r with request_count := r.request_count + 1 } ip b = true := hr
      simp only [List.map_cons, hr, if_true, List.find?_cons, hk, Option.map_some']
    | false =>
      simp only [List.map_cons, hr, List.find?_cons, Bool.false_eq_true, if_false]
      exact ih

theorem selectCount_eq_none_iff (db : RequestStats) (ip : String) (b : Int) :
    selectCount db ip b = none ↔ db.any (fun r => r.hasKey ip b) = false := by
  unfold selectCount
  induction db with
  | nil => simp
  | cons r db ih =>
    cases hr : r.hasKey ip b with
    | true => simp [List.find?_cons, hr]
    | false => simp [List.find?_cons, hr]

theorem selectCount_upsertCount (db : RequestStats) (ip : String) (b : Int) :
    selectCount (upsertCount db ip b) ip b = some (scanCount db ip b + 1) := by
  unfold upsertCount
  cases h : db.any (fun r => r.hasKey ip b) with
  | true =>
    rw [if_pos rfl]
    unfold scanCount selectCount
    rw [find?_bump]
    cases hf : db.find? (fun r => r.hasKey ip b) with
    | none =>
      have := (selectCount_eq_none_iff db ip b).1 (by simp [selectCount, hf])
      rw [h] at this
      exact absurd this (by decide)
    | some r => simp
  | false =>
    rw [if_neg (by decide)]
    have hnone := (selectCount_eq_none_iff db ip b).2 h
    have hfind : db.find? (fun r => r.hasKey ip b) = none := by
      simpa [selectCount] using hnone
    have hnew : RequestStat.hasKey
        { ip_address := ip, minute_bucket := b, request_count := 1 } ip b = true := by
      simp [RequestStat.hasKey]
    rw [scanCount, hnone]
    rw [selectCount, List.find?_append, hfind]
    simp [List.find?_cons, hnew]

theorem scanCount_upsertCount (db : RequestStats) (ip : String) (b : Int) :
    scanCount (upsertCount db ip b) ip b = scanCount db ip b + 1 := by
  simp [scanCount, selectCount_upsertCount db ip b]

theorem checkRateLimit_below (db : RequestStats) (ip : String) (now : Int)
    (h : scanCount db ip (minuteBucket now) < rateLimit) :
    checkRateLimit db ip now = (true, upsertCount db ip (minuteBucket now)) := by
  simp [checkRateLimit, not_le.2 h]

theorem checkRateLimit_full (db : RequestStats) (ip : String) (now : Int)
    (h : rateLimit ≤ scanCount db ip (minuteBucket now)) :
    checkRateLimit db ip now = (false, db) := by
  simp [checkRateLimit, h]

/-- C1 (amended). For every table, source and instant, with `c` the stored count
of the row for (source, minute bucket of the instant), read as 0 when the row is
absent: when `c < 100` the call returns `true` and the stored count becomes
`c + 1` (the row is created with count 1 when it was absent); when `c ≥ 100` the
call returns `false` and the table is unchanged. -/
theorem checkRateLimit_counts (db : RequestStats) (ip : String) (now : Int) :
    (scanCount db ip (minuteBucket now) < rateLimit →
      (checkRateLimit db ip now).1 = true ∧
      selectCount (checkRateLimit db ip now).2 ip (minuteBucket now)
        = some (scanCount db ip (minuteBucket now) + 1)) ∧
    (selectCount db ip (minuteBucket now) = none →
      (checkRateLimit db ip now).1 = true ∧
      selectCount (checkRateLimit db ip now).2 ip (minuteBucket now) = some 1) ∧
    (rateLimit ≤ scanCount db ip (minuteBucket now) →
      (checkRateLimit db ip now).1 = false ∧ (checkRateLimit db ip now).2 = db) := by
  refine ⟨fun h => ?_, fun h => ?_, fun h => ?_⟩
  · rw [checkRateLimit_below db ip now h]
    exact ⟨rfl, selectCount_upsertCount db ip _⟩
  · have h0 : scanCount db ip (minuteBucket now) = 0 := by simp [scanCount, h]
    have hlt : scanCount db ip (minuteBucket now) < rateLimit := by
      rw [h0]; decide
    rw [checkRateLimit_below db ip now hlt]
    refine ⟨rfl, ?_⟩
    simpa [h0] using selectCount_upsertCount db ip (minuteBucket now)
  · rw [checkRateLimit_full db ip now h]
    exact ⟨rfl, rfl⟩

theorem checkRateLimitSeq_from (ip : String) (b : Int) (nows : List Int) :
    ∀ db : RequestStats, (∀ t ∈ nows, minuteBucket t = b) →
      (checkRateLimitSeq db ip nows).1
        = List.replicate (min nows.length (rateLimit - scanCount db ip b).toNat) true
          ++ List.replicate (nows.length - (rateLimit - scanCount db ip b).toNat) false := by
  induction nows with
  | nil => intro db _; simp [checkRateLimitSeq]
  | cons t nows ih =>
    intro db hb
    have ht : minuteBucket t = b := hb t (List.mem_cons_self _ _)
    have hrest : ∀ u ∈ nows, minuteBucket u = b := fun u hu => hb u (List.mem_cons_of_mem _ hu)
    rcases lt_or_le (scanCount db ip b) rateLimit with h | h
    · have hc := checkRateLimit_below db ip t (by rw [ht]; exact h)
      simp only [checkRateLimitSeq, hc, ht]
      rw [ih _ hrest, scanCount_upsertCount]
      obtain ⟨n, hn⟩ : ∃ n : Nat, (rateLimit - scanCount db ip b).toNat = n + 1 :=
        ⟨(rateLimit - scanCount db ip b).toNat - 1, by omega⟩
      have hn2 : (rateLimit - (scanCount db ip b + 1)).toNat = n := by omega
      rw [hn, hn2, List.length_cons, Nat.succ_min_succ, List.replicate_succ,
        Nat.succ_sub_succ]
      rfl
    · have hc := checkRateLimit_full db ip t (by rw [ht]; exact h)
      simp only [checkRateLimitSeq, hc]
      rw [ih _ hrest]
      have hn : (rateLimit - scanCount db ip b).toNat = 0 := by omega
      simp [hn, List.replicate_succ]

/-- C2. From a table with no row for (source, bucket), `K` successive calls of
`checkRateLimit` for that source at instants of that bucket return `true` for the
first `min K 100` calls and `false` for all later ones. -/
theorem checkRateLimitSeq_fresh (db : RequestStats) (ip : String) (b : Int) (nows : List Int)
    (hfresh : selectCount db ip b = none) (hb : ∀ t ∈ nows, minuteBucket t = b) :
    (checkRateLimitSeq db ip nows).1
      = List.replicate (min nows.length rateLimit.toNat) true
        ++ List.replicate (nows.length - rateLimit.toNat) false := by
  have h := checkRateLimitSeq_from ip b nows db hb
  have h0 : scanCount db ip b = 0 := by simp [scanCount, hfresh]
  simpa [h0] using h

theorem count_set_add (a : CallState) :
    ∀ (l : List CallState) (i : Nat) (c c' : CallState), l[i]? = some c →
      (l.set i c').count a + (if c = a then 1 else 0)
        = l.count a + (if c' = a then 1 else 0) := by
  intro l
  induction l with
  | nil => intro i c c' h; simp at h
  | cons x l ih =>
    intro i c c' h
    cases i with
    | zero =>
      simp only [List.getElem?_cons_zero, Option.some.injEq] at h
      subst h
      simp only [List.set_cons_zero, List.count_cons, beq_iff_eq]
      omega
    | succ i =>
      simp only [List.getElem?_cons_succ] at h
      have := ih i c c' h
      simp only [List.set_cons_succ, List.count_cons, beq_iff_eq]
      omega

theorem Racing.step_inv (ip : String) (bucket : Int) (c0 : Int) (st : Racing) (i : Nat)
    (h : st.Inv ip bucket c0) : (st.step ip bucket i).Inv ip bucket c0 := by
  unfold Racing.step
  cases hi : st.calls[i]? with
  | none => exact h
  | some c =>
    obtain ⟨h1, h2, h3⟩ := h
    cases c with
    | pending =>
      have hc := count_set_add (.returned true) st.calls i .pending
        (.fetched (scanCount st.db ip bucket)) hi
      simp only [reduceCtorEq, if_false, Nat.add_zero] at hc
      refine ⟨?_, ?_, ?_⟩
      · simpa [stepCall, Racing.granted, hc] using h1
      · intro n hn
        rcases List.mem_or_eq_of_mem_set hn with hm | he
        · exact h2 n hm
        · cases he; exact le_refl _
      · intro hf
        rcases List.mem_or_eq_of_mem_set hf with hm | he
        · exact h3 hm
        · cases he
    | fetched n =>
      have hn : n ≤ scanCount st.db ip bucket := h2 n (List.getElem?_mem hi)
      by_cases hlim : rateLimit ≤ n
      · have hc := count_set_add (.returned true) st.calls i (.fetched n) (.returned false) hi
        simp only [reduceCtorEq, if_false, Nat.add_zero, CallState.returned.injEq,
          Bool.false_eq_true] at hc
        simp only [stepCall, ge_iff_le, hlim, if_true]
        refine ⟨?_, ?_, ?_⟩
        · simpa [Racing.granted, hc] using h1
        · intro m hm
          rcases List.mem_or_eq_of_mem_set hm with hm | he
          · exact h2 m hm
          · cases he
        · intro _
          exact le_trans hlim hn
      · have hc := count_set_add (.returned true) st.calls i (.fetched n) (.returned true) hi
        simp only [reduceCtorEq, if_false, Nat.add_zero, if_true] at hc
        simp only [stepCall, ge_iff_le, hlim, if_false]
        refine ⟨?_, ?_, ?_⟩
        · simp only [Racing.granted, hc, scanCount_upsertCount]
          simp only [Racing.granted] at h1
          rw [h1]; push_cast; ring
        · intro m hm
          rw [scanCount_upsertCount]
          rcases List.mem_or_eq_of_mem_set hm with hm | he
          · have := h2 m hm; omega
          · cases he
        · intro hf
          rw [scanCount_upsertCount]
          rcases List.mem_or_eq_of_mem_set hf with hm | he
          · have := h3 hm; omega
          · cases he
    | returned b =>
      have hset : st.calls.set i (.returned b) = st.calls := by
        apply List.ext_getElem?
        intro j
        rw [List.getElem?_set]
        split
        · next hij =>
            subst hij
            have hlt : i < st.calls.length := (List.getElem?_eq_some.1 hi).1
            simp [hi, hlt]
        · rfl
      simpa [stepCall, hset] using (⟨h1, h2, h3⟩ : st.Inv ip bucket c0)

theorem Racing.run_inv (ip : String) (bucket : Int) (c0 : Int) (schedule : List Nat) :
    ∀ st : Racing, st.Inv ip bucket c0 → (st.run ip bucket schedule).Inv ip bucket c0 := by
  induction schedule with
  | nil => intro st h; exact h
  | cons i rest ih =>
    intro st h
    exact ih _ (Racing.step_inv ip bucket c0 st i h)

theorem Racing.step_length (ip : String) (bucket : Int) (st : Racing) (i : Nat) :
    (st.step ip bucket i).calls.length = st.calls.length := by
  unfold Racing.step
  cases st.calls[i]? <;> simp

theorem Racing.run_length (ip : String) (bucket : Int) (schedule : List Nat) :
    ∀ st : Racing, (st.run ip bucket schedule).calls.length = st.calls.length := by
  induction schedule with
  | nil => intro st; rfl
  | cons i rest ih =>
    intro st
    exact (ih _).trans (Racing.step_length ip bucket st i)

theorem Racing.start_inv (ip : String) (bucket : Int) (k : Nat) (db : RequestStats) :
    (Racing.start k db).Inv ip bucket (scanCount db ip bucket) := by
  refine ⟨?_, ?_, ?_⟩
  · simp [Racing.start, Racing.granted, List.count_replicate]
  · intro n hn
    simp [Racing.start, List.mem_replicate] at hn
  · intro hf
    simp [Racing.start, List.mem_replicate] at hf

theorem granted_of_all_true (calls : List CallState)
    (hfin : calls.all (fun c => match c with | .returned _ => true | _ => false) = true)
    (hno : CallState.returned false ∉ calls) :
    calls.count (.returned true) = calls.length := by
  refine (List.count_eq_length (a := CallState.returned true) (l := calls)).2 ?_
  intro c hc
  rw [List.all_eq_true] at hfin
  have := hfin c hc
  cases c with
  | pending => simp at this
  | fetched n => simp at this
  | returned b =>
    cases b with
    | true => rfl
    | false => exact absurd hc hno

/-- The number of calls granted under a schedule. `k` calls of `checkRateLimit` on
the same (source, bucket), started on a table with no row for it, each a `SELECT`
followed by a separate upsert, under every schedule of their store operations:
once all calls have returned, the stored count equals the number of calls that
returned `true`, that number is at least `min k 100` and at most `k`, and it is
`k` when `k ≤ 100`. -/
theorem checkRateLimit_interleaved (ip : String) (bucket : Int) (k : Nat) (db : RequestStats)
    (schedule : List Nat) (hfresh : selectCount db ip bucket = none)
    (hfin : ((Racing.start k db).run ip bucket schedule).finished = true) :
    scanCount ((Racing.start k db).run ip bucket schedule).db ip bucket
        = (((Racing.start k db).run ip bucket schedule).granted : Int) ∧
      min k rateLimit.toNat ≤ ((Racing.start k db).run ip bucket schedule).granted ∧
      ((Racing.start k db).run ip bucket schedule).granted ≤ k ∧
      (k ≤ rateLimit.toNat →
        ((Racing.start k db).run ip bucket schedule).granted = k) := by
  suffices hmain :
      scanCount ((Racing.start k db).run ip bucket schedule).db ip bucket
          = (((Racing.start k db).run ip bucket schedule).granted : Int) ∧
        min k rateLimit.toNat ≤ ((Racing.start k db).run ip bucket schedule).granted ∧
        ((Racing.start k db).run ip bucket schedule).granted ≤ k by
    obtain ⟨ha, hb, hc⟩ := hmain
    exact ⟨ha, hb, hc, fun hk => le_antisymm hc (by rwa [min_eq_left hk] at hb)⟩
  have h0 : scanCount db ip bucket = 0 := by simp [scanCount, hfresh]
  have hinv := Racing.run_inv ip bucket _ schedule _ (Racing.start_inv ip bucket k db)
  have hlen := Racing.run_length ip bucket schedule (Racing.start k db)
  rw [h0] at hinv
  obtain ⟨h1, _, h3⟩ := hinv
  have hk : (Racing.start k db).calls.length = k := by simp [Racing.start]
  rw [hk] at hlen
  refine ⟨by simpa using h1, ?_, ?_⟩
  · by_cases hf : CallState.returned false ∈ ((Racing.start k db).run ip bucket schedule).calls
    · have := h3 hf
      rw [h1] at this
      have h100 : rateLimit = 100 := rfl
      rw [h100] at this ⊢
      simp only [zero_add] at this
      have : (100 : Nat) ≤ ((Racing.start k db).run ip bucket schedule).granted := by
        exact_mod_cast this
      exact le_trans (min_le_right _ _) this
    · have := granted_of_all_true _ hfin hf
      rw [hlen] at this
      unfold Racing.granted
      rw [this]
      exact min_le_left _ _
  · have hle := List.count_le_length (CallState.returned true)
      ((Racing.start k db).run ip bucket schedule).calls
    rw [hlen] at hle
    exact hle

theorem checkRateLimitSeq_final (ip : String) (b : Int) (nows : List Int) :
    ∀ db : RequestStats, (∀ t ∈ nows, minuteBucket t = b) → scanCount db ip b ≤ rateLimit →
      scanCount (checkRateLimitSeq db ip nows).2 ip b
        = scanCount db ip b
          + (min nows.length (rateLimit - scanCount db ip b).toNat : Nat) := by
  induction nows with
  | nil => intro db _ _; simp [checkRateLimitSeq]
  | cons t nows ih =>
    intro db hb hle
    have ht : minuteBucket t = b := hb t (List.mem_cons_self _ _)
    have hrest : ∀ u ∈ nows, minuteBucket u = b := fun u hu => hb u (List.mem_cons_of_mem _ hu)
    rcases lt_or_le (scanCount db ip b) rateLimit with h | h
    · have hc := checkRateLimit_below db ip t (by rw [ht]; exact h)
      simp only [checkRateLimitSeq, hc, ht]
      have hnext : scanCount (upsertCount db ip b) ip b ≤ rateLimit := by
        rw [scanCount_upsertCount]; omega
      rw [ih _ hrest hnext, scanCount_upsertCount, List.length_cons]
      omega
    · have hc := checkRateLimit_full db ip t (by rw [ht]; exact h)
      simp only [checkRateLimitSeq, hc]
      rw [ih _ hrest hle]
      have hn : (rateLimit - scanCount db ip b).toNat = 0 := by omega
      simp [hn]

theorem checkRateLimitSeq_count (ip : String) (b : Int) (nows : List Int) (db : RequestStats)
    (hb : ∀ t ∈ nows, minuteBucket t = b) :
    (checkRateLimitSeq db ip nows).1.count true
      = min nows.length (rateLimit - scanCount db ip b).toNat := by
  rw [checkRateLimitSeq_from ip b nows db hb]
  simp [List.count_append, List.count_replicate]

/-- C3 (amended). `k` calls of `checkRateLimit` on the same (source, bucket), started
on a table with no row for it: under every schedule of their store operations,
once all calls have returned, the stored count equals the number of calls that
returned `true` (a rejected call is not counted); and when the calls run one
after the other, exactly `min k 100` of them return `true` and the stored count
is `min k 100`. -/
theorem checkRateLimit_rejected_not_counted (db : RequestStats) (ip : String) (bucket : Int)
    (hfresh : selectCount db ip bucket = none) :
    (∀ (k : Nat) (schedule : List Nat),
      ((Racing.start k db).run ip bucket schedule).finished = true →
      scanCount ((Racing.start k db).run ip bucket schedule).db ip bucket
        = (((Racing.start k db).run ip bucket schedule).granted : Int)) ∧
    (∀ nows : List Int, (∀ t ∈ nows, minuteBucket t = bucket) →
      (checkRateLimitSeq db ip nows).1.count true = min nows.length rateLimit.toNat ∧
      scanCount (checkRateLimitSeq db ip nows).2 ip bucket
        = ((min nows.length rateLimit.toNat : Nat) : Int)) := by
  have h0 : scanCount db ip bucket = 0 := by simp [scanCount, hfresh]
  refine ⟨fun k schedule _ => ?_, fun nows hb => ⟨?_, ?_⟩⟩
  · have hinv := Racing.run_inv ip bucket _ schedule _ (Racing.start_inv ip bucket k db)
    rw [h0] at hinv
    simpa using hinv.1
  · have h := checkRateLimitSeq_count ip bucket nows db hb
    rw [h0] at h
    simpa using h
  · have h := checkRateLimitSeq_final ip bucket nows db hb (by rw [h0]; decide)
    rw [h0] at h
    simpa using h

theorem stepCall_twice (db : RequestStats) (ip : String) (now : Int) :
    stepCall (stepCall db ip (minuteBucket now) .pending).2 ip (minuteBucket now)
        (stepCall db ip (minuteBucket now) .pending).1
      = (.returned (checkRateLimit db ip now).1, (checkRateLimit db ip now).2) := by
  by_cases h : rateLimit ≤ scanCount db ip (minuteBucket now)
  · simp [stepCall, checkRateLimit, h]
  · simp [stepCall, checkRateLimit, h]

/-- C1 (counterexample). On a table whose row for the source and bucket holds
count 100, the call returns `false` and the stored count is still 100, not 101. -/
theorem checkRateLimit_full_bucket_not_counted :
    (checkRateLimit [⟨"1.2.3.4", 2, 100⟩] "1.2.3.4" 125).1 = false ∧
    scanCount (checkRateLimit [⟨"1.2.3.4", 2, 100⟩] "1.2.3.4" 125).2 "1.2.3.4"
      (minuteBucket 125) = 100 ∧
    scanCount (checkRateLimit [⟨"1.2.3.4", 2, 100⟩] "1.2.3.4" 125).2 "1.2.3.4"
      (minuteBucket 125) ≠
      scanCount [⟨"1.2.3.4", 2, 100⟩] "1.2.3.4" (minuteBucket 125) + 1 := by
  decide

/-- C1 (amended), at concrete tables: a first call creates the row with count 1,
and a call on a full bucket changes nothing. -/
theorem checkRateLimit_counts_witness :
    ((checkRateLimit [] "1.2.3.4" 125).1 = true ∧
      selectCount (checkRateLimit [] "1.2.3.4" 125).2 "1.2.3.4" (minuteBucket 125) = some 1) ∧
    ((checkRateLimit [⟨"1.2.3.4", 2, 100⟩] "1.2.3.4" 125).1 = false ∧
      (checkRateLimit [⟨"1.2.3.4", 2, 100⟩] "1.2.3.4" 125).2 = [⟨"1.2.3.4", 2, 100⟩]) :=
  ⟨(checkRateLimit_counts [] "1.2.3.4" 125).2.1 (by decide),
   (checkRateLimit_counts [⟨"1.2.3.4", 2, 100⟩] "1.2.3.4" 125).2.2 (by decide)⟩

/-- C2, for `K = 150` calls on an empty table: 100 times `true`, then 50 times
`false`. -/
theorem checkRateLimitSeq_fresh_witness :
    selectCount [] "1.2.3.4" 2 = none ∧
    (∀ t ∈ List.replicate 150 (125 : Int), minuteBucket t = 2) ∧
    (checkRateLimitSeq [] "1.2.3.4" (List.replicate 150 125)).1
      = List.replicate 100 true ++ List.replicate 50 false :=
  ⟨rfl, fun t ht => by rw [List.eq_of_mem_replicate ht]; rfl,
   checkRateLimitSeq_fresh [] "1.2.3.4" 2 (List.replicate 150 125) rfl
     (fun t ht => by rw [List.eq_of_mem_replicate ht]; rfl)⟩

/-- C3 (counterexample). 101 calls on an empty table, run one after the other (one
of the interleavings): 100 of them return `true` and the final stored count is
100, not `K = 101`. -/
theorem checkRateLimit_final_count_not_k :
    ((Racing.start 101 []).run "1.2.3.4" 2
      ((List.range 101).flatMap (fun i => [i, i]))).finished = true ∧
    ((Racing.start 101 []).run "1.2.3.4" 2
      ((List.range 101).flatMap (fun i => [i, i]))).granted = 100 ∧
    scanCount ((Racing.start 101 []).run "1.2.3.4" 2
      ((List.range 101).flatMap (fun i => [i, i]))).db "1.2.3.4" 2 = 100 ∧
    scanCount ((Racing.start 101 []).run "1.2.3.4" 2
      ((List.range 101).flatMap (fun i => [i, i]))).db "1.2.3.4" 2 ≠ 101 ∧
    (checkRateLimitSeq [] "1.2.3.4" (List.replicate 101 125)).1.count true = 100 ∧
    scanCount (checkRateLimitSeq [] "1.2.3.4" (List.replicate 101 125)).2 "1.2.3.4" 2 = 100 := by
  decide

/-- C3 (amended), for three calls whose store operations alternate and for 150
calls run one after the other. -/
theorem checkRateLimit_rejected_not_counted_witness :
    selectCount [] "1.2.3.4" 2 = none ∧
    ((Racing.start 3 []).run "1.2.3.4" 2 [0, 1, 0, 2, 1, 2]).finished = true ∧
    scanCount ((Racing.start 3 []).run "1.2.3.4" 2 [0, 1, 0, 2, 1, 2]).db "1.2.3.4" 2
      = (((Racing.start 3 []).run "1.2.3.4" 2 [0, 1, 0, 2, 1, 2]).granted : Int) ∧
    (checkRateLimitSeq [] "1.2.3.4" (List.replicate 150 125)).1.count true = 100 ∧
    scanCount (checkRateLimitSeq [] "1.2.3.4" (List.replicate 150 125)).2 "1.2.3.4" 2 = 100 :=
  ⟨rfl, by decide,
   (checkRateLimit_rejected_not_counted [] "1.2.3.4" 2 rfl).1 3 [0, 1, 0, 2, 1, 2] (by decide),
   ((checkRateLimit_rejected_not_counted [] "1.2.3.4" 2 rfl).2 (List.replicate 150 125)
     (fun t ht => by rw [List.eq_of_mem_replicate ht]; rfl)).1,
   ((checkRateLimit_rejected_not_counted [] "1.2.3.4" 2 rfl).2 (List.replicate 150 125)
     (fun t ht => by rw [List.eq_of_mem_replicate ht]; rfl)).2⟩

/-- The race between the `SELECT` and the upsert. 101 calls on an empty table,
scheduled so that every call runs its `SELECT` before any call runs its upsert:
all 101 return `true`, one more than `rateLimit`. And 101 calls run one after the
other end with stored count 100. -/
theorem checkRateLimit_race_overadmits :
    ((Racing.start 101 []).run "1.2.3.4" 2 (List.range 101 ++ List.range 101)).finished = true ∧
    ((Racing.start 101 []).run "1.2.3.4" 2 (List.range 101 ++ List.range 101)).granted = 101 ∧
    ((Racing.start 101 []).run "1.2.3.4" 2 (List.range 101 ++ List.range 101)).granted
      ≠ min 101 rateLimit.toNat ∧
    scanCount (checkRateLimitSeq [] "1.2.3.4" (List.replicate 101 125)).2 "1.2.3.4" 2 = 100 := by
  decide

/-- Three calls whose store operations alternate: all three are granted and the
stored count is 3. -/
theorem checkRateLimit_interleaved_witness :
    selectCount [] "1.2.3.4" 2 = none ∧
    ((Racing.start 3 []).run "1.2.3.4" 2 [0, 1, 0, 2, 1, 2]).finished = true ∧
    scanCount ((Racing.start 3 []).run "1.2.3.4" 2 [0, 1, 0, 2, 1, 2]).db "1.2.3.4" 2 = 3 ∧
    ((Racing.start 3 []).run "1.2.3.4" 2 [0, 1, 0, 2, 1, 2]).granted = 3 :=
  ⟨rfl, by decide,
   by
    have h := checkRateLimit_interleaved "1.2.3.4" 2 3 [] [0, 1, 0, 2, 1, 2] rfl (by decide)
    have h3 := h.2.2.2 (by decide)
    have h1 := h.1
    rw [h3] at h1
    exact_mod_cast h1,
   (checkRateLimit_interleaved "1.2.3.4" 2 3 [] [0, 1, 0, 2, 1, 2] rfl (by decide)).2.2.2
     (by decide)⟩

/-! ### The views over `activity_log` -/

theorem sqlMax_eq_none {l : List Int} (h : sqlMax l = none) : l = [] := by
  cases l with
  | nil => rfl
  | cons x xs =>
    simp only [sqlMax] at h
    cases hx : sqlMax xs <;> simp [hx] at h

theorem sqlMax_mem : ∀ {l : List Int} {m : Int}, sqlMax l = some m → m ∈ l := by
  intro l
  induction l with
  | nil => intro m h; simp [sqlMax] at h
  | cons x xs ih =>
    intro m h
    simp only [sqlMax] at h
    cases hx : sqlMax xs with
    | none =>
      simp only [hx, Option.some.injEq] at h
      subst h
      exact List.mem_cons_self _ _
    | some k =>
      simp only [hx, Option.some.injEq] at h
      subst h
      rcases max_choice x k with hc | hc
      · rw [hc]; exact List.mem_cons_self _ _
      · rw [hc]; exact List.mem_cons_of_mem _ (ih hx)

theorem sqlMax_le : ∀ {l : List Int} {m : Int}, sqlMax l = some m → ∀ x ∈ l, x ≤ m := by
  intro l
  induction l with
  | nil => intro m _ x hx; simp at hx
  | cons y ys ih =>
    intro m h x hx
    simp only [sqlMax] at h
    cases hy : sqlMax ys with
    | none =>
      simp only [hy, Option.some.injEq] at h
      subst h
      have hnil := sqlMax_eq_none hy
      subst hnil
      simp only [List.mem_singleton] at hx
      exact le_of_eq hx
    | some k =>
      simp only [hy, Option.some.injEq] at h
      subst h
      rcases List.mem_cons.1 hx with he | hm
      · rw [he]; exact le_max_left _ _
      · exact le_trans (ih hy x hm) (le_max_right _ _)

theorem sqlMax_of_ne_nil {l : List Int} (h : l ≠ []) : ∃ m, sqlMax l = some m := by
  cases hm : sqlMax l with
  | none => exact absurd (sqlMax_eq_none hm) h
  | some m => exact ⟨m, rfl⟩

theorem mem_groupNames {rows : ActivityLog} {n : String} :
    n ∈ groupNames rows ↔ ∃ r ∈ rows, r.name = some n := by
  simp [groupNames, List.mem_dedup, List.mem_filterMap]

theorem mem_nameGroup {rows : ActivityLog} {n : String} {r : ActivityLogRow} :
    r ∈ nameGroup rows n ↔ r ∈ rows ∧ r.name = some n := by
  simp [nameGroup, List.mem_filter]

theorem hasName_iff {r : ActivityLogRow} :
    r.hasName = true ↔ ∃ n, r.name = some n ∧ n ≠ "" := by
  unfold ActivityLogRow.hasName
  cases r.name with
  | none => simp
  | some n => simp

theorem since_iff {r : ActivityLogRow} {now window : Int} :
    r.since now window = true ↔ now - window ≤ r.timestamp := by
  simp [ActivityLogRow.since]

theorem mem_liveStats {window : Int} {log : ActivityLog} {now : Int} {s : LiveStats} :
    s ∈ liveStats window log now ↔
      ∃ n ∈ groupNames (log.filter (fun r => r.hasName && r.since now window)),
        s = { name := n
              max_timestamp := sqlMax ((nameGroup
                (log.filter (fun r => r.hasName && r.since now window)) n).map
                  (fun r => r.timestamp))
              total_count := ((nameGroup
                (log.filter (fun r => r.hasName && r.since now window)) n).length : Int)
              error_count := (((nameGroup
                (log.filter (fun r => r.hasName && r.since now window)) n).filter
                  (fun r => r.isError)).length : Int) } := by
  simp only [liveStats, List.mem_map]
  constructor
  · rintro ⟨n, hn, rfl⟩; exact ⟨n, hn, rfl⟩
  · rintro ⟨n, hn, rfl⟩; exact ⟨n, hn, rfl⟩

theorem liveJoin_eq_some {a : ActivityLogRow} {s : LiveStats} {u : liveUser}
    (h : liveJoin a s = some u) :
    a.name = some s.name ∧ s.max_timestamp = some a.timestamp ∧ s.name ≠ "" ∧
      u = { Name := s.name, LastSeen := a.timestamp, Endpoint := a.endpoint,
            TotalCount := s.total_count, ErrorCount := s.error_count } := by
  unfold liveJoin at h
  cases hn : a.name with
  | none => simp [hn] at h
  | some n =>
    simp only [hn] at h
    split at h
    · next hc =>
      obtain ⟨h1, h2, h3⟩ := hc
      subst h1
      simp only [Option.some.injEq] at h
      obtain ⟨m, hm, hne⟩ := hasName_iff.1 h3
      rw [hn] at hm
      cases hm
      exact ⟨rfl, h2.symm, hne, h.symm⟩
    · simp at h

theorem mem_liveUsersWithin {window : Int} {log : ActivityLog} {now : Int} {u : liveUser} :
    u ∈ liveUsersWithin window log now ↔
      ∃ a ∈ log, ∃ s ∈ liveStats window log now, liveJoin a s = some u := by
  simp only [liveUsersWithin, List.mem_insertionSort, List.mem_flatMap, List.mem_filterMap]

/-- The rows of the `stats` subquery's `WHERE`, for one name, are the rows of the
log with that name inside the window. -/
theorem nameGroup_window (window : Int) (log : ActivityLog) (now : Int) (n : String)
    (hn : n ≠ "") :
    nameGroup (log.filter (fun r => r.hasName && r.since now window)) n
      = log.filter (fun r => decide (r.name = some n ∧ now - window ≤ r.timestamp)) := by
  unfold nameGroup
  rw [List.filter_filter]
  apply List.filter_congr
  intro r _
  by_cases h : r.name = some n
  · have hh : r.hasName = true := hasName_iff.2 ⟨n, h, hn⟩
    simp [h, hh, ActivityLogRow.since]
  · simp [h]

theorem liveUsers_row {window : Int} {log : ActivityLog} {now : Int} {u : liveUser}
    (hu : u ∈ liveUsersWithin window log now) :
    u.Name ≠ "" ∧
    (∃ a ∈ log, a.name = some u.Name ∧ a.timestamp = u.LastSeen ∧ a.endpoint = u.Endpoint) ∧
    sqlMax ((log.filter (fun r => decide (r.name = some u.Name ∧
        now - window ≤ r.timestamp))).map (fun r => r.timestamp)) = some u.LastSeen ∧
    u.TotalCount = ((log.filter (fun r => decide (r.name = some u.Name ∧
        now - window ≤ r.timestamp))).length : Int) ∧
    u.ErrorCount = (((log.filter (fun r => decide (r.name = some u.Name ∧
        now - window ≤ r.timestamp))).filter (fun r => r.isError)).length : Int) := by
  obtain ⟨a, ha, s, hs, hj⟩ := mem_liveUsersWithin.1 hu
  obtain ⟨n, _, rfl⟩ := mem_liveStats.1 hs
  obtain ⟨h1, h2, h3, rfl⟩ := liveJoin_eq_some hj
  simp only at h1 h2 h3 ⊢
  rw [nameGroup_window window log now n h3] at h2 ⊢
  exact ⟨h3, ⟨a, ha, h1, rfl, rfl⟩, h2, rfl, rfl⟩

theorem since_of_le {r : ActivityLogRow} {now window : Int}
    (h : now - window ≤ r.timestamp) : r.since now window = true :=
  since_iff.2 h

theorem since_of_lt {r : ActivityLogRow} {now window : Int}
    (h : r.timestamp < now - window) : r.since now window = false := by
  rw [Bool.eq_false_iff]
  intro hs
  have := since_iff.1 hs
  omega

theorem live_row_exists {window : Int} {log : ActivityLog} {now : Int} {n : String}
    (hn : n ≠ "") {e : ActivityLogRow} (he : e ∈ log) (hname : e.name = some n)
    (hwin : now - window ≤ e.timestamp) :
    ∃ u ∈ liveUsersWithin window log now, u.Name = n := by
  have hmem : e ∈ log.filter (fun r => decide (r.name = some n ∧ now - window ≤ r.timestamp)) := by
    rw [List.mem_filter]
    exact ⟨he, decide_eq_true ⟨hname, hwin⟩⟩
  have hne : (log.filter (fun r => decide (r.name = some n ∧
      now - window ≤ r.timestamp))).map (fun r => r.timestamp) ≠ [] := by
    intro h
    rw [List.map_eq_nil_iff] at h
    rw [h] at hmem
    simp at hmem
  obtain ⟨m, hm⟩ := sqlMax_of_ne_nil hne
  obtain ⟨a, ha, hts⟩ := List.mem_map.1 (sqlMax_mem hm)
  rw [List.mem_filter] at ha
  obtain ⟨halog, hcond⟩ := ha
  simp only [decide_eq_true_eq] at hcond
  have hgroup : n ∈ groupNames (log.filter (fun r => r.hasName && r.since now window)) := by
    refine mem_groupNames.2 ⟨e, ?_, hname⟩
    rw [List.mem_filter]
    exact ⟨he, by rw [hasName_iff.2 ⟨n, hname, hn⟩, since_of_le hwin]; rfl⟩
  have hhas : a.hasName = true := hasName_iff.2 ⟨n, hcond.1, hn⟩
  obtain ⟨s, hs, hsn, hsm⟩ : ∃ s ∈ liveStats window log now,
      s.name = n ∧ s.max_timestamp = some a.timestamp := by
    refine ⟨_, mem_liveStats.2 ⟨n, hgroup, rfl⟩, rfl, ?_⟩
    simp only
    rw [nameGroup_window window log now n hn, hm, hts]
  have hj : liveJoin a s
      = some ⟨n, a.timestamp, a.endpoint, s.total_count, s.error_count⟩ := by
    simp only [liveJoin, hcond.1, hsn, hsm, hhas, and_self, if_true]
  exact ⟨_, mem_liveUsersWithin.2 ⟨a, halog, s, hs, hj⟩, rfl⟩

theorem liveStats_append_old (window : Int) (log : ActivityLog) (now : Int)
    (e : ActivityLogRow) (hold : e.timestamp < now - window) :
    liveStats window (log ++ [e]) now = liveStats window log now := by
  have hs : e.since now window = false := since_of_lt hold
  simp [liveStats, List.filter_append, List.filter_cons, hs]

theorem liveStats_in_window {window : Int} {log : ActivityLog} {now : Int} {s : LiveStats}
    (hs : s ∈ liveStats window log now) {m : Int} (hm : s.max_timestamp = some m) :
    now - window ≤ m := by
  obtain ⟨n, _, rfl⟩ := mem_liveStats.1 hs
  simp only at hm
  obtain ⟨a, ha, hts⟩ := List.mem_map.1 (sqlMax_mem hm)
  have ha2 := (mem_nameGroup.1 ha).1
  rw [List.mem_filter] at ha2
  have := ha2.2
  simp only [Bool.and_eq_true] at this
  rw [← hts]
  exact since_iff.1 this.2

theorem liveUsersWithin_append_old (window : Int) (log : ActivityLog) (now : Int)
    (e : ActivityLogRow) (hold : e.timestamp < now - window) :
    liveUsersWithin window (log ++ [e]) now = liveUsersWithin window log now := by
  unfold liveUsersWithin
  rw [liveStats_append_old window log now e hold]
  have hnil : (liveStats window log now).filterMap (fun s => liveJoin e s) = [] := by
    rw [List.filterMap_eq_nil_iff]
    intro s hs
    cases hj : liveJoin e s with
    | none => rfl
    | some u =>
      have h2 := (liveJoin_eq_some hj).2.1
      have := liveStats_in_window hs h2
      omega
  simp only [List.flatMap_append, List.flatMap_cons, List.flatMap_nil, hnil, List.append_nil]

theorem mem_studentProgressQuery {log : ActivityLog} {now : Int} {p : studentProgress} :
    p ∈ studentProgressQuery log now ↔
      ∃ n ∈ groupNames (log.filter (fun r => r.name.isSome && r.since now 14400)),
        p = { Name := n
              TotalRequests := ((nameGroup
                (log.filter (fun r => r.name.isSome && r.since now 14400)) n).length : Int)
              FirstSeen := (sqlMin ((nameGroup
                (log.filter (fun r => r.name.isSome && r.since now 14400)) n).map
                  (fun r => r.timestamp))).getD 0
              LastSeen := (sqlMax ((nameGroup
                (log.filter (fun r => r.name.isSome && r.since now 14400)) n).map
                  (fun r => r.timestamp))).getD 0
              Sessions := ((((nameGroup
                (log.filter (fun r => r.name.isSome && r.since now 14400)) n).filterMap
                  (fun r => r.session_id)).dedup).length : Int) } := by
  simp only [studentProgressQuery, List.mem_insertionSort, List.mem_map]
  constructor
  · rintro ⟨n, hn, rfl⟩; exact ⟨n, hn, rfl⟩
  · rintro ⟨n, hn, rfl⟩; exact ⟨n, hn, rfl⟩

theorem nameGroup_progress (log : ActivityLog) (now : Int) (n : String) :
    nameGroup (log.filter (fun r => r.name.isSome && r.since now 14400)) n
      = log.filter (fun r => decide (r.name = some n ∧ now - 14400 ≤ r.timestamp)) := by
  unfold nameGroup
  rw [List.filter_filter]
  apply List.filter_congr
  intro r _
  by_cases h : r.name = some n
  · simp [h, ActivityLogRow.since]
  · simp [h]

theorem scanRows_of_none {α β : Type} (scan : α → Option β) (h : ∀ r, scan r = none)
    (l : List α) : scanRows scan l = ([], !l.isEmpty) := by
  cases l with
  | nil => rfl
  | cons r rs => simp [scanRows, h r]

/-- The loader of the progress table returns no row, and an error as soon as its
statement yields a row. -/
theorem loadStudentProgress_eq (log : ActivityLog) (now : Int) :
    loadStudentProgress log now = ([], !(studentProgressQuery log now).isEmpty) :=
  scanRows_of_none _ (fun _ => rfl) _

/-- The loader of the inactive list returns no row, and an error as soon as its
statement yields a row. -/
theorem loadInactiveStudents_eq (log : ActivityLog) (now : Int) :
    loadInactiveStudents log now = ([], !(inactiveStudentsQuery log now).isEmpty) :=
  scanRows_of_none _ (fun _ => rfl) _

theorem printedProgress_eq (r : studentProgress) :
    printedProgress r = { Name := r.Name, TotalRequests := r.TotalRequests,
                          FirstSeen := zeroTime, LastSeen := zeroTime, Sessions := 0 } := rfl

theorem printedInactive_eq (r : inactiveStudent) :
    printedInactive r = { Name := r.Name, LastSeen := zeroTime } := rfl

/-- The window boundary of the three statements. Appending to the log an event
stamped exactly `now - W` adds one to the count of its view, and appending one
stamped earlier than `now - W` leaves the view as it was: for the live view
(`W = 1h`, the total of the event's actor, the actor being named), the summary
(`W = 2h`, the total request count) and the progress table that
`runStudentProgress` prints (`W = 4h`, the requests of the event's actor). With
the event at `now - 4h` in the log, `loadStudentProgress` returns an error and no
row. -/
theorem window_boundary (log : ActivityLog) (now : Int) (e : ActivityLogRow) :
    (e.timestamp = now - 3600 → ∀ n, e.name = some n → n ≠ "" →
      ∃ u ∈ loadLiveUsers (log ++ [e]) now, u.Name = n ∧
        u.TotalCount = ((log.filter (fun r => decide (r.name = some n ∧
          now - 3600 ≤ r.timestamp))).length : Int) + 1) ∧
    (e.timestamp < now - 3600 → loadLiveUsers (log ++ [e]) now = loadLiveUsers log now) ∧
    (e.timestamp = now - 7200 →
      (loadSummary (log ++ [e]) now).totalRequests = (loadSummary log now).totalRequests + 1) ∧
    (e.timestamp < now - 7200 → loadSummary (log ++ [e]) now = loadSummary log now) ∧
    (e.timestamp = now - 14400 → ∀ n, e.name = some n →
      (∃ p ∈ (runStudentProgress (log ++ [e]) now).1, p.Name = n ∧
        p.TotalRequests = ((log.filter (fun r => decide (r.name = some n ∧
          now - 14400 ≤ r.timestamp))).length : Int) + 1) ∧
      loadStudentProgress (log ++ [e]) now = ([], true)) ∧
    (e.timestamp < now - 14400 →
      (runStudentProgress (log ++ [e]) now).1 = (runStudentProgress log now).1 ∧
      loadStudentProgress (log ++ [e]) now = loadStudentProgress log now) := by
  refine ⟨?_, ?_, ?_, ?_, ?_, ?_⟩
  · intro hts n hname hn
    obtain ⟨u, hu, hun⟩ := @live_row_exists 3600 (log ++ [e]) now n
      hn e (by simp) hname (by omega)
    refine ⟨u, hu, hun, ?_⟩
    have := (liveUsers_row hu).2.2.2.1
    rw [this, hun]
    simp [List.filter_append, List.filter_cons, hname, hts]
  · intro hold
    exact liveUsersWithin_append_old 3600 log now e hold
  · intro hts
    have hs : e.since now 7200 = true := since_of_le (le_of_eq hts.symm)
    simp [loadSummary, List.filter_append, List.filter_cons, hs]
  · intro hold
    have hs : e.since now 7200 = false := since_of_lt hold
    simp [loadSummary, List.filter_append, List.filter_cons, hs]
  · intro hts n hname
    have hs : e.since now 14400 = true := since_of_le (le_of_eq hts.symm)
    have hgroup : n ∈ groupNames
        ((log ++ [e]).filter (fun r => r.name.isSome && r.since now 14400)) := by
      refine mem_groupNames.2 ⟨e, ?_, hname⟩
      simp [List.mem_filter, hname, hs]
    have hq := mem_studentProgressQuery.2 ⟨n, hgroup, rfl⟩
    constructor
    · refine ⟨_, List.mem_map.2 ⟨_, hq, rfl⟩, rfl, ?_⟩
      rw [printedProgress_eq]
      simp only
      rw [nameGroup_progress]
      simp [List.filter_append, List.filter_cons, hname, hts]
    · rw [loadStudentProgress_eq]
      cases hl : studentProgressQuery (log ++ [e]) now with
      | nil => rw [hl] at hq; simp at hq
      | cons x xs => rfl
  · intro hold
    have hs : e.since now 14400 = false := since_of_lt hold
    have hq : studentProgressQuery (log ++ [e]) now = studentProgressQuery log now := by
      simp [studentProgressQuery, List.filter_append, List.filter_cons, hs]
    simp only [runStudentProgress, loadStudentProgress, hq, and_self]

theorem mem_window_filter {log : ActivityLog} {n : String} {lo : Int} {r : ActivityLogRow} :
    r ∈ log.filter (fun r => decide (r.name = some n ∧ lo ≤ r.timestamp)) ↔
      r ∈ log ∧ r.name = some n ∧ lo ≤ r.timestamp := by
  rw [List.mem_filter, decide_eq_true_eq]

/-- C5. Every row of the live-activity result carries the maximum timestamp among
its actor's events with `timestamp ≥ now - 1h`: the timestamp lies in the window,
it is the timestamp of an event of that actor whose endpoint is the row's
endpoint, and no event of the actor in the window is later. -/
theorem loadLiveUsers_latest (log : ActivityLog) (now : Int) (u : liveUser)
    (hu : u ∈ loadLiveUsers log now) :
    now - 3600 ≤ u.LastSeen ∧
    (∃ e ∈ log, e.name = some u.Name ∧ e.timestamp = u.LastSeen ∧ e.endpoint = u.Endpoint) ∧
    (∀ e ∈ log, e.name = some u.Name → now - 3600 ≤ e.timestamp → e.timestamp ≤ u.LastSeen) := by
  obtain ⟨_, hex, hmax, _, _⟩ := liveUsers_row hu
  refine ⟨?_, hex, ?_⟩
  · obtain ⟨a, ha, hts⟩ := List.mem_map.1 (sqlMax_mem hmax)
    rw [← hts]
    exact (mem_window_filter.1 ha).2.2
  · intro e he hname hwin
    exact sqlMax_le hmax e.timestamp
      (List.mem_map.2 ⟨e, mem_window_filter.2 ⟨he, hname, hwin⟩, rfl⟩)

/-- C6. Every row of the live-activity result has as total count the number of
its actor's events with `timestamp ≥ now - 1h`, and as error count the number of
those events whose response code is present and at least 400. -/
theorem loadLiveUsers_counts (log : ActivityLog) (now : Int) (u : liveUser)
    (hu : u ∈ loadLiveUsers log now) :
    u.TotalCount = ((log.filter (fun e => decide (e.name = some u.Name ∧
        now - 3600 ≤ e.timestamp))).length : Int) ∧
    u.ErrorCount = ((log.filter (fun e => decide ((e.name = some u.Name ∧
        now - 3600 ≤ e.timestamp) ∧ ∃ c, e.response_code = some c ∧ 400 ≤ c))).length : Int) := by
  obtain ⟨_, _, _, htot, herr⟩ := liveUsers_row hu
  refine ⟨htot, ?_⟩
  rw [herr, List.filter_filter]
  congr 2
  apply List.filter_congr
  intro e _
  unfold ActivityLogRow.isError
  cases e.response_code with
  | none => simp
  | some c => simp [and_comm]

theorem mem_inactiveSince {threshold : Int} {log : ActivityLog} {now : Int}
    {s : inactiveStudent} :
    s ∈ inactiveSince threshold log now ↔
      (∃ e ∈ log, e.name = some s.Name) ∧
      sqlMax ((log.filter (fun r => r.name == some s.Name)).map (fun r => r.timestamp))
        = some s.LastSeen ∧
      s.LastSeen < now - threshold := by
  have hgrp : ∀ n : String, nameGroup (log.filter (fun r => r.name.isSome)) n
      = log.filter (fun r => r.name == some n) := by
    intro n
    unfold nameGroup
    rw [List.filter_filter]
    apply List.filter_congr
    intro r _
    by_cases h : r.name = some n
    · simp [h]
    · simp [h]
  have hnames : ∀ n : String, n ∈ groupNames (log.filter (fun r => r.name.isSome)) ↔
      ∃ e ∈ log, e.name = some n := by
    intro n
    rw [mem_groupNames]
    constructor
    · rintro ⟨r, hr, hn⟩; exact ⟨r, (List.mem_filter.1 hr).1, hn⟩
    · rintro ⟨r, hr, hn⟩; exact ⟨r, List.mem_filter.2 ⟨hr, by simp [hn]⟩, hn⟩
  simp only [inactiveSince, List.mem_insertionSort, List.mem_filterMap]
  constructor
  · rintro ⟨n, hn, hrow⟩
    rw [hgrp] at hrow
    cases hm : sqlMax ((log.filter (fun r => r.name == some n)).map (fun r => r.timestamp)) with
    | none => simp [hm] at hrow
    | some m =>
      simp only [hm] at hrow
      split at hrow
      · next hlt =>
        simp only [Option.some.injEq] at hrow
        subst hrow
        exact ⟨(hnames n).1 hn, hm, hlt⟩
      · simp at hrow
  · rintro ⟨hex, hm, hlt⟩
    refine ⟨s.Name, (hnames _).2 hex, ?_⟩
    rw [hgrp]
    simp only [hm, hlt, if_true]

theorem inactive_row {threshold : Int} {log : ActivityLog} {now : Int} {s : inactiveStudent}
    (hs : s ∈ inactiveSince threshold log now) :
    (∃ e ∈ log, e.name = some s.Name ∧ e.timestamp = s.LastSeen) ∧
    (∀ e ∈ log, e.name = some s.Name → e.timestamp ≤ s.LastSeen) ∧
    s.LastSeen < now - threshold := by
  obtain ⟨_, hm, hlt⟩ := mem_inactiveSince.1 hs
  refine ⟨?_, ?_, hlt⟩
  · obtain ⟨a, ha, hts⟩ := List.mem_map.1 (sqlMax_mem hm)
    rw [List.mem_filter] at ha
    exact ⟨a, ha.1, by simpa using ha.2, hts⟩
  · intro e he hname
    exact sqlMax_le hm e.timestamp
      (List.mem_map.2 ⟨e, List.mem_filter.2 ⟨he, by simp [hname]⟩, rfl⟩)

theorem inactive_row_exists {threshold : Int} {log : ActivityLog} {now : Int} {n : String}
    {e : ActivityLogRow} (he : e ∈ log) (hname : e.name = some n)
    (hall : ∀ a ∈ log, a.name = some n → a.timestamp < now - threshold) :
    ∃ s ∈ inactiveSince threshold log now, s.Name = n := by
  have hne : (log.filter (fun r => r.name == some n)).map (fun r => r.timestamp) ≠ [] := by
    intro h
    rw [List.map_eq_nil_iff] at h
    have hmem : e ∈ log.filter (fun r => r.name == some n) :=
      List.mem_filter.2 ⟨he, by simp [hname]⟩
    rw [h] at hmem
    simp at hmem
  obtain ⟨m, hm⟩ := sqlMax_of_ne_nil hne
  obtain ⟨a, ha, hts⟩ := List.mem_map.1 (sqlMax_mem hm)
  rw [List.mem_filter] at ha
  have hlt : m < now - threshold := by
    rw [← hts]
    exact hall a ha.1 (by simpa using ha.2)
  exact ⟨⟨n, m⟩, mem_inactiveSince.2 ⟨⟨e, he, hname⟩, hm, hlt⟩, rfl⟩

/-- The rows of the inactivity statement (threshold `'-15 minutes'`): an actor has
a row exactly when the actor has an event and every event of the actor, over the
whole log, is strictly earlier than `now - 15 min`; the row carries the maximum
timestamp of the actor's events; an actor with an event exactly at `now - 15 min`
has no row. -/
theorem inactiveStudentsQuery_iff (log : ActivityLog) (now : Int) (n : String) :
    ((∃ s ∈ inactiveStudentsQuery log now, s.Name = n) ↔
      (∃ e ∈ log, e.name = some n) ∧
        ∀ e ∈ log, e.name = some n → e.timestamp < now - 900) ∧
    (∀ s ∈ inactiveStudentsQuery log now, s.Name = n →
      (∃ e ∈ log, e.name = some n ∧ e.timestamp = s.LastSeen) ∧
        ∀ e ∈ log, e.name = some n → e.timestamp ≤ s.LastSeen) ∧
    ((∃ e ∈ log, e.name = some n ∧ e.timestamp = now - 900) →
      ∀ s ∈ inactiveStudentsQuery log now, s.Name ≠ n) := by
  refine ⟨⟨?_, ?_⟩, ?_, ?_⟩
  · rintro ⟨s, hs, rfl⟩
    obtain ⟨⟨a, ha, han, _⟩, hle, hlt⟩ := inactive_row hs
    exact ⟨⟨a, ha, han⟩, fun e he hname => lt_of_le_of_lt (hle e he hname) hlt⟩
  · rintro ⟨⟨e, he, hname⟩, hall⟩
    exact inactive_row_exists he hname hall
  · rintro s hs rfl
    obtain ⟨hex, hle, _⟩ := inactive_row hs
    exact ⟨hex, hle⟩
  · rintro ⟨e, he, hname, hts⟩ s hs rfl
    obtain ⟨_, hle, hlt⟩ := inactive_row hs
    have := hle e he hname
    omega

/-- The names of the inactive list that `runStudentProgress` prints are the names
of the rows of the inactivity statement. -/
theorem mem_printed_inactive {log : ActivityLog} {now : Int} {s : inactiveStudent}
    (hs : s ∈ (runStudentProgress log now).2) :
    ∃ r ∈ inactiveStudentsQuery log now, r.Name = s.Name := by
  obtain ⟨r, hr, rfl⟩ := List.mem_map.1 hs
  exact ⟨r, hr, rfl⟩

/-- C8 (amended). No actor whose live-activity row has its last-seen within the last
15 minutes, the threshold of the inactivity query, is in the inactivity result of
the same log at the same instant: not among the rows of the inactivity
statement, and not in the inactive list that `runStudentProgress` prints. -/
theorem live_inactive_disjoint (log : ActivityLog) (now : Int) (u : liveUser)
    (hu : u ∈ loadLiveUsers log now) (hrecent : now - 900 ≤ u.LastSeen) :
    (∀ s ∈ inactiveStudentsQuery log now, s.Name ≠ u.Name) ∧
    (∀ s ∈ (runStudentProgress log now).2, s.Name ≠ u.Name) := by
  have hquery : ∀ s ∈ inactiveStudentsQuery log now, s.Name ≠ u.Name := by
    intro s hs heq
    obtain ⟨_, ⟨a, ha, han, hts, _⟩, _, _, _⟩ := liveUsers_row hu
    obtain ⟨_, hle, hlt⟩ := inactive_row hs
    have := hle a ha (by rw [heq]; exact han)
    omega
  refine ⟨hquery, ?_⟩
  intro s hs
  obtain ⟨r, hr, hname⟩ := mem_printed_inactive hs
  rw [← hname]
  exact hquery r hr

/-- C4 (failing input). Two events of Alice logged within the same second: the live
query returns two rows named Alice. -/
theorem loadLiveUsers_tied_rows :
    loadLiveUsers tiedLog 10000
      = [⟨"Alice", 9700, "/message", 2, 0⟩, ⟨"Alice", 9700, "/messages", 2, 0⟩] ∧
    ((loadLiveUsers tiedLog 10000).filter (fun u => u.Name == "Alice")).length = 2 := by
  decide

/-- C5, for Alice seen at `now - 50 min` and `now - 5 min`. -/
theorem loadLiveUsers_latest_witness :
    (⟨"Alice", 9700, "/messages", 2, 1⟩ : liveUser) ∈ loadLiveUsers aliceLog 10000 ∧
    (10000 - 3600 ≤ (9700 : Int) ∧
      (∃ e ∈ aliceLog, e.name = some "Alice" ∧ e.timestamp = 9700 ∧ e.endpoint = "/messages") ∧
      (∀ e ∈ aliceLog, e.name = some "Alice" → 10000 - 3600 ≤ e.timestamp →
        e.timestamp ≤ 9700)) :=
  ⟨by decide, loadLiveUsers_latest aliceLog 10000 ⟨"Alice", 9700, "/messages", 2, 1⟩ (by decide)⟩

/-- C6, for Alice with events at `now - 50 min` (status 200) and `now - 5 min`
(status 404): one row, the endpoint of the later event, total 2, errors 1. -/
theorem loadLiveUsers_counts_witness :
    loadLiveUsers aliceLog 10000 = [⟨"Alice", 9700, "/messages", 2, 1⟩] ∧
    ((2 : Int) = ((aliceLog.filter (fun e => decide (e.name = some "Alice" ∧
        10000 - 3600 ≤ e.timestamp))).length : Int) ∧
     (1 : Int) = ((aliceLog.filter (fun e => decide ((e.name = some "Alice" ∧
        10000 - 3600 ≤ e.timestamp) ∧ ∃ c, e.response_code = some c ∧ 400 ≤ c))).length : Int)) :=
  ⟨by decide, loadLiveUsers_counts aliceLog 10000 ⟨"Alice", 9700, "/messages", 2, 1⟩ (by decide)⟩

/-- C7 (failing input). Bob was last seen at `now - 20 min`: the inactivity
statement yields his row with that time, but `loadInactiveStudents` fails at the
`Scan` of `MAX(timestamp)` into a `time.Time` and returns no row and an error, and
`runStudentProgress` prints Bob with the zero time as last-seen. -/
theorem inactive_last_seen_not_scanned :
    inactiveStudentsQuery bobLog 10000 = [⟨"Bob", 8800⟩] ∧
    loadInactiveStudents bobLog 10000 = ([], true) ∧
    (runStudentProgress bobLog 10000).2 = [⟨"Bob", zeroTime⟩] := by
  decide

/-- C8 (counterexample). With the windows of the code (live one hour, inactivity 15
minutes), Bob, last seen 20 minutes ago, has a live-activity row and is in the
inactive list that `runStudentProgress` prints at the same instant. -/
theorem live_and_inactive_overlap :
    (⟨"Bob", 8800, "/message", 1, 0⟩ : liveUser) ∈ loadLiveUsers bobLog 10000 ∧
    (⟨"Bob", 8800⟩ : inactiveStudent) ∈ inactiveStudentsQuery bobLog 10000 ∧
    (⟨"Bob", zeroTime⟩ : inactiveStudent) ∈ (runStudentProgress bobLog 10000).2 := by
  decide

/-- C8 (amended), for Alice last seen 5 minutes ago and Bob 20 minutes ago: Alice is
live and not in the inactive list. -/
theorem live_inactive_disjoint_witness :
    (⟨"Alice", 9700, "/message", 1, 0⟩ : liveUser) ∈ loadLiveUsers bobLog 10000 ∧
    (10000 : Int) - 900 ≤ 9700 ∧
    (runStudentProgress bobLog 10000).2 = [⟨"Bob", zeroTime⟩] ∧
    (∀ s ∈ (runStudentProgress bobLog 10000).2, s.Name ≠ "Alice") :=
  ⟨by decide, by decide, by decide,
   (live_inactive_disjoint bobLog 10000 ⟨"Alice", 9700, "/message", 1, 0⟩ (by decide)
     (by decide)).2⟩

/-- The window boundary at `now = 10000`: an event of Alice exactly one hour old
raises her live total from 2 to 3; an event exactly two hours old raises the
summary total by one, and one a second older changes nothing. -/
theorem window_boundary_witness :
    (∃ u ∈ loadLiveUsers (aliceLog ++ [logRow 3 6400 "/message" (some "Alice") (some 200)]) 10000,
      u.Name = "Alice" ∧ u.TotalCount = 2 + 1) ∧
    (loadSummary (aliceLog ++ [logRow 3 2800 "/status" none (some 200)]) 10000).totalRequests
      = (loadSummary aliceLog 10000).totalRequests + 1 ∧
    loadSummary (aliceLog ++ [logRow 3 2799 "/status" none (some 200)]) 10000
      = loadSummary aliceLog 10000 :=
  ⟨(window_boundary aliceLog 10000 (logRow 3 6400 "/message" (some "Alice") (some 200))).1
     (by decide) "Alice" rfl (by decide),
   (window_boundary aliceLog 10000 (logRow 3 2800 "/status" none (some 200))).2.2.1 (by decide),
   (window_boundary aliceLog 10000 (logRow 3 2799 "/status" none (some 200))).2.2.2.1
     (by decide)⟩

/-- C9 (failing input). The log written by `GET /v1/message?name=Alice&session_id=s1`
at instant 10000, read exactly four hours later: the statement of the progress
view counts the event (Alice, 1 request) and `runStudentProgress` prints that
count, but `loadStudentProgress` fails at the `Scan` of `MIN(timestamp)` into a
`time.Time` and returns no row and an error, so the progress view of the page
does not count the event. One second later the event is out of the window. -/
theorem progress_boundary_not_returned :
    (handleRequest seedStore getMessageAliceSession).2.activity_log.map
        (fun r => (r.name, r.timestamp)) = [(some "Alice", 10000), (none, 10000)] ∧
    studentProgressQuery (handleRequest seedStore getMessageAliceSession).2.activity_log
      (10000 + 14400) = [⟨"Alice", 1, 10000, 10000, 1⟩] ∧
    (runStudentProgress (handleRequest seedStore getMessageAliceSession).2.activity_log
      (10000 + 14400)).1 = [⟨"Alice", 1, zeroTime, zeroTime, 0⟩] ∧
    loadStudentProgress (handleRequest seedStore getMessageAliceSession).2.activity_log
      (10000 + 14400) = ([], true) ∧
    studentProgressQuery (handleRequest seedStore getMessageAliceSession).2.activity_log
      (10000 + 14400 + 1) = [] := by
  decide

/-- On a hand-built log with one event whose name is the empty string and one whose
name is NULL, the statement of the summary counts one name. (The handlers store
no empty name, see `handleAll_noEmptyName`.) -/
theorem loadSummary_counts_empty_name :
    (loadSummary emptyNameLog 10000).uniqueStudents = 1 := by
  decide

/-! ### The rate limiter: rows and bounds -/

theorem hasKey_iff (r : RequestStat) (ip : String) (b : Int) :
    r.hasKey ip b = true ↔ (r.ip_address, r.minute_bucket) = (ip, b) := by
  simp [RequestStat.hasKey]

theorem any_hasKey_iff (db : RequestStats) (ip : String) (b : Int) :
    db.any (fun r => r.hasKey ip b) = true ↔ (ip, b) ∈ statKeys db := by
  simp only [List.any_eq_true, statKeys, List.mem_map, hasKey_iff]

theorem statKeys_upsertCount (db : RequestStats) (ip : String) (b : Int) :
    statKeys (upsertCount db ip b)
      = if (ip, b) ∈ statKeys db then statKeys db else statKeys db ++ [(ip, b)] := by
  unfold upsertCount
  by_cases h : db.any (fun r => r.hasKey ip b) = true
  · rw [if_pos h, if_pos ((any_hasKey_iff db ip b).1 h)]
    simp only [statKeys, List.map_map]
    apply List.map_congr_left
    intro r _
    by_cases hr : r.hasKey ip b = true
    · simp [hr]
    · simp [hr]
  · rw [if_neg h, if_neg (fun hm => h ((any_hasKey_iff db ip b).2 hm))]
    simp [statKeys]

theorem statKeys_upsertCount_nodup (db : RequestStats) (ip : String) (b : Int)
    (hpk : (statKeys db).Nodup) : (statKeys (upsertCount db ip b)).Nodup := by
  rw [statKeys_upsertCount]
  split
  · exact hpk
  · next h =>
    rw [List.nodup_append]
    refine ⟨hpk, List.nodup_singleton _, ?_⟩
    intro k hk hk2
    rw [List.mem_singleton] at hk2
    subst hk2
    exact h hk

theorem selectCount_upsertCount_of_ne (db : RequestStats) (ip : String) (b : Int)
    (ip2 : String) (b2 : Int) (hne : (ip2, b2) ≠ (ip, b)) :
    selectCount (upsertCount db ip b) ip2 b2 = selectCount db ip2 b2 := by
  have hrow : ∀ r : RequestStat, r.hasKey ip2 b2 = true → r.hasKey ip b = false := by
    intro r hr
    rw [Bool.eq_false_iff]
    intro hr2
    exact hne (((hasKey_iff r ip2 b2).1 hr).symm.trans ((hasKey_iff r ip b).1 hr2))
  have hmap : List.find? (fun r => r.hasKey ip2 b2)
      (db.map (fun r => if r.hasKey ip b = true then
        { r with request_count := r.request_count + 1 } else r))
      = List.find? (fun r => r.hasKey ip2 b2) db := by
    induction db with
    | nil => rfl
    | cons r db ih =>
      cases hr : r.hasKey ip2 b2 with
      | true =>
        simp only [List.map_cons, hrow r hr, Bool.false_eq_true, if_false, List.find?_cons, hr]
      | false =>
        have hk : RequestStat.hasKey
            (if r.hasKey ip b = true then { r with request_count := r.request_count + 1 } else r)
            ip2 b2 = false := by
          split
          · exact hr
          · exact hr
        simp only [List.map_cons, List.find?_cons, hk, hr]
        exact ih
  unfold upsertCount selectCount
  split
  · rw [hmap]
  · have hnew : RequestStat.hasKey
        { ip_address := ip, minute_bucket := b, request_count := 1 } ip2 b2 = false := by
      rw [Bool.eq_false_iff]
      intro h
      exact hne ((hasKey_iff _ ip2 b2).1 h).symm
    rw [List.find?_append]
    simp [List.find?_cons, hnew]

/-- Under the primary key, every row of the key holds the count that the `SELECT`
reads. -/
theorem count_of_hasKey (ip : String) (b : Int) :
    ∀ db : RequestStats, (statKeys db).Nodup → ∀ r ∈ db, r.hasKey ip b = true →
      r.request_count = scanCount db ip b := by
  intro db
  induction db with
  | nil => intro _ r hr; simp at hr
  | cons x db ih =>
    intro hpk r hr hk
    simp only [statKeys, List.map_cons, List.nodup_cons] at hpk
    cases hx : x.hasKey ip b with
    | true =>
      rcases List.mem_cons.1 hr with rfl | hmem
      · simp [scanCount, selectCount, List.find?_cons, hx]
      · exfalso
        apply hpk.1
        rw [(hasKey_iff x ip b).1 hx, ← (hasKey_iff r ip b).1 hk]
        exact List.mem_map.2 ⟨r, hmem, rfl⟩
    | false =>
      rcases List.mem_cons.1 hr with rfl | hmem
      · rw [hx] at hk; exact absurd hk (by decide)
      · have := ih hpk.2 r hmem hk
        simpa [scanCount, selectCount, List.find?_cons, hx] using this

theorem upsertCount_bounded (db : RequestStats) (ip : String) (b : Int)
    (hpk : (statKeys db).Nodup) (hb : ∀ r ∈ db, r.request_count ≤ rateLimit)
    (hlt : scanCount db ip b < rateLimit) :
    ∀ r ∈ upsertCount db ip b, r.request_count ≤ rateLimit := by
  unfold upsertCount
  split
  · intro r hr
    obtain ⟨x, hx, rfl⟩ := List.mem_map.1 hr
    by_cases hk : x.hasKey ip b = true
    · have := count_of_hasKey ip b db hpk x hx hk
      simp only [hk, if_true]
      omega
    · simp only [hk]
      exact hb x hx
  · intro r hr
    rcases List.mem_append.1 hr with h | h
    · exact hb r h
    · rw [List.mem_singleton] at h
      subst h
      show (1 : Int) ≤ rateLimit
      decide

theorem checkRateLimit_bounded (db : RequestStats) (ip : String) (now : Int)
    (hpk : (statKeys db).Nodup) (hb : ∀ r ∈ db, r.request_count ≤ rateLimit) :
    (statKeys (checkRateLimit db ip now).2).Nodup ∧
      ∀ r ∈ (checkRateLimit db ip now).2, r.request_count ≤ rateLimit := by
  rcases lt_or_le (scanCount db ip (minuteBucket now)) rateLimit with h | h
  · rw [checkRateLimit_below db ip now h]
    exact ⟨statKeys_upsertCount_nodup db ip _ hpk, upsertCount_bounded db ip _ hpk hb h⟩
  · rw [checkRateLimit_full db ip now h]
    exact ⟨hpk, hb⟩

/-- C17. For every table that respects the primary key and every call of
`checkRateLimit`: the table afterwards still has at most one row per (source,
bucket); every pair that had a count still has one, not lower than before; and
the count of every pair other than (checked source, current bucket) is unchanged. -/
theorem checkRateLimit_rows (db : RequestStats) (ip : String) (now : Int)
    (hpk : (statKeys db).Nodup) :
    (statKeys (checkRateLimit db ip now).2).Nodup ∧
    (∀ ip2 b2 c, selectCount db ip2 b2 = some c →
      ∃ c2, selectCount (checkRateLimit db ip now).2 ip2 b2 = some c2 ∧ c ≤ c2) ∧
    (∀ ip2 b2, (ip2, b2) ≠ (ip, minuteBucket now) →
      selectCount (checkRateLimit db ip now).2 ip2 b2 = selectCount db ip2 b2) := by
  rcases lt_or_le (scanCount db ip (minuteBucket now)) rateLimit with h | h
  · rw [checkRateLimit_below db ip now h]
    refine ⟨statKeys_upsertCount_nodup db ip _ hpk, ?_,
      fun ip2 b2 hne => selectCount_upsertCount_of_ne db ip _ ip2 b2 hne⟩
    intro ip2 b2 c hc
    by_cases hkey : (ip2, b2) = (ip, minuteBucket now)
    · obtain ⟨rfl, rfl⟩ := Prod.mk.inj hkey
      refine ⟨_, selectCount_upsertCount db ip2 _, ?_⟩
      simp [scanCount, hc]
    · exact ⟨c, by rw [selectCount_upsertCount_of_ne db ip _ ip2 b2 hkey]; exact hc, le_refl _⟩
  · rw [checkRateLimit_full db ip now h]
    exact ⟨hpk, fun ip2 b2 c hc => ⟨c, hc, le_refl _⟩, fun _ _ _ => rfl⟩

theorem checkRateLimit_false_unchanged (db : RequestStats) (ip : String) (now : Int)
    (hfalse : (checkRateLimit db ip now).1 = false) : (checkRateLimit db ip now).2 = db := by
  rcases lt_or_le (scanCount db ip (minuteBucket now)) rateLimit with h | h
  · rw [checkRateLimit_below db ip now h] at hfalse; exact absurd hfalse (by simp)
  · rw [checkRateLimit_full db ip now h]

theorem checkRateLimitCalls_keeps_bound (calls : List (String × Int)) :
    ∀ db : RequestStats, (statKeys db).Nodup → (∀ r ∈ db, r.request_count ≤ rateLimit) →
      ∀ r ∈ (checkRateLimitCalls db calls).2, r.request_count ≤ rateLimit := by
  induction calls with
  | nil => intro db _ hb; exact hb
  | cons call calls ih =>
    intro db hpk hb
    obtain ⟨hpk2, hb2⟩ := checkRateLimit_bounded db call.1 call.2 hpk hb
    exact ih _ hpk2 hb2

/-- C18. From a table that respects the primary key and in which every stored count
is at most 100, after any sequence of `checkRateLimit` calls run one after the
other every stored count is still at most 100; and a call that returns `false`
leaves its table unchanged. -/
theorem checkRateLimitCalls_bounded (db : RequestStats) (calls : List (String × Int))
    (hpk : (statKeys db).Nodup) (hb : ∀ r ∈ db, r.request_count ≤ rateLimit) :
    (∀ r ∈ (checkRateLimitCalls db calls).2, r.request_count ≤ rateLimit) ∧
    (∀ (db2 : RequestStats) (ip : String) (now : Int),
      (checkRateLimit db2 ip now).1 = false → (checkRateLimit db2 ip now).2 = db2) :=
  ⟨checkRateLimitCalls_keeps_bound calls db hpk hb,
   fun db2 ip now h => checkRateLimit_false_unchanged db2 ip now h⟩

/-- C17, on a table with two sources: a call for the first leaves the count of the
second as it was. -/
theorem checkRateLimit_rows_witness :
    (statKeys [⟨"1.2.3.4", 2, 5⟩, ⟨"5.6.7.8", 2, 7⟩]).Nodup ∧
    (statKeys (checkRateLimit [⟨"1.2.3.4", 2, 5⟩, ⟨"5.6.7.8", 2, 7⟩] "1.2.3.4" 125).2).Nodup ∧
    selectCount (checkRateLimit [⟨"1.2.3.4", 2, 5⟩, ⟨"5.6.7.8", 2, 7⟩] "1.2.3.4" 125).2
      "5.6.7.8" 2 = selectCount [⟨"1.2.3.4", 2, 5⟩, ⟨"5.6.7.8", 2, 7⟩] "5.6.7.8" 2 :=
  ⟨by decide,
   (checkRateLimit_rows [⟨"1.2.3.4", 2, 5⟩, ⟨"5.6.7.8", 2, 7⟩] "1.2.3.4" 125 (by decide)).1,
   (checkRateLimit_rows [⟨"1.2.3.4", 2, 5⟩, ⟨"5.6.7.8", 2, 7⟩] "1.2.3.4" 125 (by decide)).2.2
     "5.6.7.8" 2 (by decide)⟩

/-- C18, from a table with a row at 99: after three calls for its source and
bucket the row stands at 100. -/
theorem checkRateLimitCalls_bounded_witness :
    (statKeys [⟨"1.2.3.4", 2, 99⟩]).Nodup ∧
    (∀ r ∈ ([⟨"1.2.3.4", 2, 99⟩] : RequestStats), r.request_count ≤ rateLimit) ∧
    (checkRateLimitCalls [⟨"1.2.3.4", 2, 99⟩]
      [("1.2.3.4", 125), ("1.2.3.4", 126), ("1.2.3.4", 127)]).2 = [⟨"1.2.3.4", 2, 100⟩] ∧
    (∀ r ∈ (checkRateLimitCalls [⟨"1.2.3.4", 2, 99⟩]
      [("1.2.3.4", 125), ("1.2.3.4", 126), ("1.2.3.4", 127)]).2, r.request_count ≤ rateLimit) :=
  ⟨by decide, by decide, by decide,
   (checkRateLimitCalls_bounded [⟨"1.2.3.4", 2, 99⟩]
     [("1.2.3.4", 125), ("1.2.3.4", 126), ("1.2.3.4", 127)] (by decide) (by decide)).1⟩

/-! ### Request handling -/

theorem countNamed_logActivity (log : ActivityLog) (rq : Request) (endpoint : String)
    (code ms : Int) (n e : String) :
    countNamed (logActivity log rq endpoint code ms) n e = countNamed log n e := by
  simp [countNamed, logActivity, List.filter_append, List.filter_cons]

theorem countNamed_logActivityWithDetails (log : ActivityLog) (rq : Request)
    (endpoint name sessionID ip : String) (code : Int) (n e : String) :
    countNamed (logActivityWithDetails log rq endpoint name sessionID ip code) n e
      = countNamed log n e + (if name = n ∧ endpoint = e then 1 else 0) := by
  by_cases h : name = n ∧ endpoint = e
  · simp [countNamed, logActivityWithDetails, List.filter_append, List.filter_cons, h]
  · rw [if_neg h]
    have h2 : name = n → ¬endpoint = e := fun a b => h ⟨a, b⟩
    simp [countNamed, logActivityWithDetails, List.filter_append, List.filter_cons]
    exact h2

/-- What `handleGet` does: either it answers with an error status and leaves the
log alone, or it answers 200 with the sequence number read from the log and
appends the detailed row. -/
theorem handleGet_cases (key endpoint e1 e2 : String) (st : Store) (rq : Request) :
    (((handleGet key endpoint e1 e2 st rq).1.code = 400 ∨
        (handleGet key endpoint e1 e2 st rq).1.code = 429 ∨
        (handleGet key endpoint e1 e2 st rq).1.code = 500) ∧
      (handleGet key endpoint e1 e2 st rq).2.activity_log = st.activity_log) ∨
    (∃ values message, rq.query = some values ∧
      (handleGet key endpoint e1 e2 st rq).1 =
        { code := 200,
          body := .message (valuesGet values key) message rq.now rq.messageID
            (countNamed st.activity_log (valuesGet values key) endpoint + 1) } ∧
      (handleGet key endpoint e1 e2 st rq).2.activity_log =
        logActivityWithDetails st.activity_log rq endpoint (valuesGet values key)
          (valuesGet values "session_id") rq.remoteAddr 200) := by
  unfold handleGet
  cases hq : rq.query with
  | none => left; simp
  | some values =>
    simp only
    split
    · left; simp
    · split
      · left; simp
      · split
        · left; simp
        · cases hm : randomMessage st.messages rq.pick with
          | none => left; simp
          | some message =>
            right
            exact ⟨values, message, rfl, rfl, rfl⟩

theorem handlePostMessage_cases (st : Store) (rq : Request) :
    (((handlePostMessage st rq).1.code = 400 ∨ (handlePostMessage st rq).1.code = 500) ∧
      (handlePostMessage st rq).2.activity_log = st.activity_log) ∨
    (∃ req, rq.body = some req ∧ (handlePostMessage st rq).1.code = 201 ∧
      (handlePostMessage st rq).2.activity_log =
        logActivityWithDetails st.activity_log rq "/message" req.From req.SessionID
          rq.remoteAddr 201) := by
  unfold handlePostMessage
  cases hb : rq.body with
  | none => left; simp
  | some req =>
    simp only
    split
    · left; simp
    · split
      · left; simp
      · split
        · left; simp
        · split
          · left; simp
          · right
            exact ⟨req, rfl, rfl, rfl⟩

theorem handleRequest_fst (st : Store) (rq : Request) :
    (handleRequest st rq).1 = (route st rq).1 := rfl

theorem handleRequest_log (st : Store) (rq : Request) :
    (handleRequest st rq).2.activity_log
      = logActivity (route st rq).2.activity_log rq (endpointOf rq.scriptName)
          (route st rq).1.code rq.elapsed := rfl

theorem route_countNamed (st : Store) (rq : Request) (n : String) :
    countNamed (route st rq).2.activity_log n "/message"
      = countNamed st.activity_log n "/message"
        + (if servedGet n rq (route st rq).1 then 1 else 0)
        + (if deliveredPost n rq (route st rq).1 then 1 else 0) := by
  unfold route
  simp only
  by_cases hg : rq.method = "GET" ∧ endpointOf rq.scriptName = "/message"
  · rw [if_pos hg]
    have hget : rq.isGetMessage = true := by simp [Request.isGetMessage, hg]
    have hpost : rq.isPostMessage = false := by
      simp [Request.isPostMessage, hg.1]
    unfold handleGetMessage
    rcases handleGet_cases "name" "/message" "name parameter required" "name too long" st rq
      with ⟨hcode, hlog⟩ | ⟨values, message, hq, hresp, hlog⟩
    · have h200 : ((handleGet "name" "/message" "name parameter required" "name too long"
          st rq).1.code == 200) = false := by
        rcases hcode with h | h | h <;> simp [h]
      simp [servedGet, deliveredPost, hpost, h200, hlog]
    · rw [hlog, countNamed_logActivityWithDetails, hresp]
      have hqn : rq.queryName = valuesGet values "name" := by simp [Request.queryName, hq]
      simp [servedGet, deliveredPost, hget, hpost, hqn]
  · rw [if_neg hg]
    have hget : rq.isGetMessage = false := by simp [Request.isGetMessage, hg]
    by_cases hp : rq.method = "POST" ∧ endpointOf rq.scriptName = "/message"
    · rw [if_pos hp]
      have hpost : rq.isPostMessage = true := by simp [Request.isPostMessage, hp]
      rcases handlePostMessage_cases st rq with ⟨hcode, hlog⟩ | ⟨req, hb, hcode, hlog⟩
      · have h201 : ((handlePostMessage st rq).1.code == 201) = false := by
          rcases hcode with h | h <;> simp [h]
        simp [servedGet, deliveredPost, hget, h201, hlog]
      · rw [hlog, countNamed_logActivityWithDetails]
        have hs : rq.sender = req.From := by simp [Request.sender, hb]
        simp [servedGet, deliveredPost, hget, hpost, hcode, hs]
    · rw [if_neg hp]
      have hpost : rq.isPostMessage = false := by simp [Request.isPostMessage, hp]
      by_cases hgs : rq.method = "GET" ∧ endpointOf rq.scriptName = "/messages"
      · rw [if_pos hgs]
        unfold handleGetMessages
        rcases handleGet_cases "recipient" "/messages" "recipient parameter required"
          "recipient name too long" st rq with ⟨_, hlog⟩ | ⟨values, message, _, _, hlog⟩
        · simp [servedGet, deliveredPost, hget, hpost, hlog]
        · rw [hlog, countNamed_logActivityWithDetails]
          simp [servedGet, deliveredPost, hget, hpost]
      · rw [if_neg hgs]
        split <;> simp [servedGet, deliveredPost, hget, hpost, handleStatus, handleNotFound]

theorem handleRequest_countNamed (st : Store) (rq : Request) (n : String) :
    countNamed (handleRequest st rq).2.activity_log n "/message"
      = countNamed st.activity_log n "/message"
        + (if servedGet n rq (handleRequest st rq).1 then 1 else 0)
        + (if deliveredPost n rq (handleRequest st rq).1 then 1 else 0) := by
  rw [handleRequest_log, countNamed_logActivity, handleRequest_fst]
  exact route_countNamed st rq n

theorem handleAll_countNamed (n : String) (rqs : List Request) :
    ∀ st : Store, countNamed (handleAll st rqs).2.activity_log n "/message"
      = countNamed st.activity_log n "/message"
        + countHandled (servedGet n) st rqs + countHandled (deliveredPost n) st rqs := by
  induction rqs with
  | nil => intro st; simp [handleAll, countHandled]
  | cons rq rqs ih =>
    intro st
    simp only [handleAll, countHandled]
    rw [ih, handleRequest_countNamed]
    ring

theorem handleRequest_sequence (st : Store) (rq : Request)
    (hget : rq.isGetMessage = true) (hok : (handleRequest st rq).1.code = 200) :
    (handleRequest st rq).1.sequence
      = some (countNamed st.activity_log rq.queryName "/message" + 1) := by
  have hg : rq.method = "GET" ∧ endpointOf rq.scriptName = "/message" := by
    simpa [Request.isGetMessage] using hget
  rw [handleRequest_fst] at hok ⊢
  unfold route at hok ⊢
  simp only [if_pos hg] at hok ⊢
  unfold handleGetMessage at hok ⊢
  rcases handleGet_cases "name" "/message" "name parameter required" "name too long" st rq
    with ⟨hcode, _⟩ | ⟨values, message, hq, hresp, _⟩
  · rw [hok] at hcode
    rcases hcode with h | h | h <;> exact absurd h (by decide)
  · rw [hresp]
    simp [Response.sequence, Request.queryName, hq]

/-- C20 (amended). After any requests handled one after the other, a
`GET /message` answered with status 200 carries as `Sequence` one more than: the
rows of its name on endpoint `/message` that the log held at the start, the
earlier `GET /message` requests of that name answered with 200, and the earlier
`POST /message` requests sent in that name (`from`) answered with 201. -/
theorem sequence_counts_gets_and_posts (st : Store) (rqs : List Request) (rq : Request)
    (hget : rq.isGetMessage = true)
    (hok : (handleRequest (handleAll st rqs).2 rq).1.code = 200) :
    (handleRequest (handleAll st rqs).2 rq).1.sequence
      = some (countNamed st.activity_log rq.queryName "/message"
          + countHandled (servedGet rq.queryName) st rqs
          + countHandled (deliveredPost rq.queryName) st rqs + 1) := by
  rw [handleRequest_sequence _ rq hget hok, handleAll_countNamed]

/-- C20 (counterexample). Alice posts a message and then asks for one: her first
served `GET /message` carries `Sequence` 2. -/
theorem sequence_after_post :
    countHandled (servedGet "Alice") seedStore [postFromAlice] = 0 ∧
    (handleRequest (handleAll seedStore [postFromAlice]).2 getMessageAlice).1
      = { code := 200, body := .message "Alice" "You are doing great!" 10000 "msg_01" 2 } ∧
    (handleRequest (handleAll seedStore [postFromAlice]).2 getMessageAlice).1.sequence
      ≠ some 1 := by
  decide

/-- C20 (amended), for Alice who posted once and was served once before. -/
theorem sequence_counts_gets_and_posts_witness :
    getMessageAlice.isGetMessage = true ∧
    (handleRequest (handleAll seedStore [postFromAlice, getMessageAlice]).2
      getMessageAlice).1.code = 200 ∧
    (handleRequest (handleAll seedStore [postFromAlice, getMessageAlice]).2
      getMessageAlice).1.sequence = some (0 + 1 + 1 + 1) :=
  ⟨by decide, by decide,
   sequence_counts_gets_and_posts seedStore [postFromAlice, getMessageAlice] getMessageAlice
     (by decide) (by decide)⟩

theorem noEmptyName_logActivity {log : ActivityLog} (h : NoEmptyName log) (rq : Request)
    (endpoint : String) (code ms : Int) : NoEmptyName (logActivity log rq endpoint code ms) := by
  intro r hr
  simp only [logActivity, List.mem_append, List.mem_singleton] at hr
  rcases hr with hr | rfl
  · exact h r hr
  · simp

theorem noEmptyName_logActivityWithDetails {log : ActivityLog} (h : NoEmptyName log)
    (rq : Request) (endpoint name sessionID ip : String) (code : Int) (hname : name ≠ "") :
    NoEmptyName (logActivityWithDetails log rq endpoint name sessionID ip code) := by
  intro r hr
  simp only [logActivityWithDetails, List.mem_append, List.mem_singleton] at hr
  rcases hr with hr | rfl
  · exact h r hr
  · simpa using hname

theorem handleGet_noEmptyName (key endpoint e1 e2 : String) (st : Store) (rq : Request)
    (h : NoEmptyName st.activity_log) :
    NoEmptyName (handleGet key endpoint e1 e2 st rq).2.activity_log := by
  unfold handleGet
  cases hq : rq.query with
  | none => exact h
  | some values =>
    simp only
    split
    · exact h
    · rename_i hne
      split
      · exact h
      · split
        · exact h
        · cases hm : randomMessage st.messages rq.pick with
          | none => exact h
          | some message =>
            exact noEmptyName_logActivityWithDetails h rq _ _ _ _ _ hne

theorem handlePostMessage_noEmptyName (st : Store) (rq : Request)
    (h : NoEmptyName st.activity_log) :
    NoEmptyName (handlePostMessage st rq).2.activity_log := by
  unfold handlePostMessage
  cases hb : rq.body with
  | none => exact h
  | some req =>
    simp only
    split
    · exact h
    · rename_i hne
      split
      · exact h
      · split
        · exact h
        · split
          · exact h
          · exact noEmptyName_logActivityWithDetails h rq _ _ _ _ _
              (fun hf => hne (Or.inl hf))

theorem handleRequest_noEmptyName (st : Store) (rq : Request)
    (h : NoEmptyName st.activity_log) :
    NoEmptyName (handleRequest st rq).2.activity_log := by
  rw [handleRequest_log]
  apply noEmptyName_logActivity
  unfold route
  simp only
  split
  · exact handleGet_noEmptyName _ _ _ _ st rq h
  · split
    · exact handlePostMessage_noEmptyName st rq h
    · split
      · exact handleGet_noEmptyName _ _ _ _ st rq h
      · split
        · exact h
        · exact h

/-- No request handled by `main` stores the empty string as a name: the log of a
store that held none holds none after any requests. -/
theorem handleAll_noEmptyName (rqs : List Request) :
    ∀ st : Store, NoEmptyName st.activity_log → NoEmptyName (handleAll st rqs).2.activity_log := by
  induction rqs with
  | nil => intro st h; exact h
  | cons rq rqs ih =>
    intro st h
    exact ih _ (handleRequest_noEmptyName st rq h)

theorem uniqueStudents_of_noEmptyName (log : ActivityLog) (now : Int) (h : NoEmptyName log) :
    (loadSummary log now).uniqueStudents
      = ((((log.filter (fun r => decide (now - 7200 ≤ r.timestamp))).filterMap
          (fun r => r.name)).filter (fun n => n ≠ "")).toFinset.card : Int) := by
  have hall : ∀ n ∈ (log.filter (fun r => decide (now - 7200 ≤ r.timestamp))).filterMap
      (fun r => r.name), decide (n ≠ "") = true := by
    intro n hn
    obtain ⟨r, hr, hrn⟩ := List.mem_filterMap.1 hn
    have := h r (List.mem_of_mem_filter hr)
    rw [hrn] at this
    simpa using this
  rw [List.filter_eq_self.2 hall, List.card_toFinset]
  rfl

/-- C10. On every log that the request handler has written (from a log without an
empty-string name, such as the empty log of a new database) and at every
instant, the actor count of the traffic summary is the number of distinct
non-empty names among the events of the last two hours: events without a name
add nothing, and the handler stores no empty name. -/
theorem loadSummary_uniqueStudents (st : Store) (rqs : List Request) (now : Int)
    (h : NoEmptyName st.activity_log) :
    (loadSummary (handleAll st rqs).2.activity_log now).uniqueStudents
      = (((((handleAll st rqs).2.activity_log.filter
            (fun r => decide (now - 7200 ≤ r.timestamp))).filterMap
          (fun r => r.name)).filter (fun n => n ≠ "")).toFinset.card : Int) :=
  uniqueStudents_of_noEmptyName _ now (handleAll_noEmptyName rqs st h)

/-- C10, for a new database and four requests (a message served to Alice, a
request refused for its empty name, a message posted by Alice, a status
request): six rows, one actor. -/
theorem loadSummary_uniqueStudents_witness :
    NoEmptyName seedStore.activity_log ∧
    (handleAll seedStore
        [getMessageAlice, getMessageNoName, postFromAlice, getStatus]).2.activity_log.map
        (fun r => r.name) = [some "Alice", none, none, some "Alice", none, none] ∧
    (loadSummary (handleAll seedStore
        [getMessageAlice, getMessageNoName, postFromAlice, getStatus]).2.activity_log
      10000).uniqueStudents = 1 :=
  ⟨fun r hr => by simp [seedStore] at hr, by decide,
   (loadSummary_uniqueStudents seedStore
      [getMessageAlice, getMessageNoName, postFromAlice, getStatus] 10000
      (fun r hr => by simp [seedStore] at hr)).trans (by decide)⟩

/-- C11 (failing input). `GET /v1/message?name=Alice&session_id=s1` is logged with
session `s1`, and the statement of the progress view yields Alice with one
session; but `Scan` fails at `MIN(timestamp)`, before it reaches the session
count: `runStudentProgress` prints 0 sessions for Alice and `loadStudentProgress`
returns no row and an error. -/
theorem progress_sessions_not_scanned :
    (handleRequest seedStore getMessageAliceSession).2.activity_log.map
        (fun r => (r.name, r.session_id)) = [(some "Alice", some "s1"), (none, none)] ∧
    studentProgressQuery (handleRequest seedStore getMessageAliceSession).2.activity_log 10000
      = [⟨"Alice", 1, 10000, 10000, 1⟩] ∧
    (runStudentProgress (handleRequest seedStore getMessageAliceSession).2.activity_log 10000).1
      = [⟨"Alice", 1, zeroTime, zeroTime, 0⟩] ∧
    loadStudentProgress (handleRequest seedStore getMessageAliceSession).2.activity_log 10000
      = ([], true) := by
  decide

/-- The statement of the progress view counts the empty string, which
`logActivityWithDetails` stores for a request without `session_id`, as a session
(`COUNT(DISTINCT session_id)` leaves out NULL only); no caller receives that
count, since the `Scan` fails before the session column. -/
theorem studentProgressQuery_counts_empty_session :
    (handleRequest seedStore getMessageAlice).2.activity_log.map
        (fun r => (r.name, r.session_id)) = [(some "Alice", some ""), (none, none)] ∧
    studentProgressQuery (handleRequest seedStore getMessageAlice).2.activity_log 10000
      = [⟨"Alice", 1, 10000, 10000, 1⟩] ∧
    (runStudentProgress (handleRequest seedStore getMessageAlice).2.activity_log 10000).1
      = [⟨"Alice", 1, zeroTime, zeroTime, 0⟩] := by
  decide

/-- C14 (failing input). A served `GET /message` appends two rows to the log: the
row of `logActivityWithDetails` and the row of `logActivity`. -/
theorem served_request_logged_twice :
    (handleRequest seedStore getMessageAlice).1.code = 200 ∧
    (handleRequest seedStore getMessageAlice).2.activity_log.length
      = seedStore.activity_log.length + 2 ∧
    (handleRequest seedStore getMessageAlice).2.activity_log.map
        (fun r => (r.id, r.endpoint, r.name, r.response_code))
      = [(1, "/message", some "Alice", some 200), (2, "/message", none, some 200)] := by
  decide

/-- C16 (failing input). With the caller's bucket at 100, `GET /message` is refused
with 429, while `POST /message` stores its message (201) and `GET /status` answers
(200), both without a call of `checkRateLimit`: neither handler changes
`request_stats`, for any store and request. -/
theorem post_and_status_skip_rate_limit :
    (handleRequest fullBucketStore getMessageAlice).1.code = 429 ∧
    (handleRequest fullBucketStore postFromAlice).1.code = 201 ∧
    (handleRequest fullBucketStore postFromAlice).2.user_messages
      = [⟨"msg_02", "Alice", "Bob", "You are great", "1.2.3.4"⟩] ∧
    (handleRequest fullBucketStore postFromAlice).2.request_stats
      = fullBucketStore.request_stats ∧
    (handleRequest fullBucketStore getStatus).1.code = 200 ∧
    (handleRequest fullBucketStore getStatus).2.request_stats
      = fullBucketStore.request_stats ∧
    (∀ (st : Store) (rq : Request),
      (handlePostMessage st rq).2.request_stats = st.request_stats ∧
      (handleStatus st rq).2.request_stats = st.request_stats) := by
  refine ⟨by decide, by decide, by decide, by decide, by decide, by decide, ?_⟩
  intro st rq
  refine ⟨?_, rfl⟩
  unfold handlePostMessage
  cases rq.body with
  | none => rfl
  | some req =>
    simp only
    split
    · rfl
    · split
      · rfl
      · split
        · rfl
        · split <;> rfl

/-! ### The error rate -/

theorem roundHalfEven_sub_le (q : ℚ) : |(roundHalfEven q : ℚ) - q| ≤ 1 / 2 := by
  have h1 : (⌊q⌋ : ℚ) ≤ q := Int.floor_le q
  have h2 : q < ⌊q⌋ + 1 := Int.lt_floor_add_one q
  unfold roundHalfEven
  rw [abs_le]
  split
  · constructor <;> linarith
  · split
    · push_cast
      constructor <;> linarith
    · have heq : q - ⌊q⌋ = 1 / 2 := le_antisymm (by linarith) (by linarith)
      split
      · constructor <;> linarith
      · push_cast
        constructor <;> linarith

theorem roundHalfEven_intCast (n : ℤ) : roundHalfEven (n : ℚ) = n := by
  unfold roundHalfEven
  rw [Int.floor_intCast]
  simp

theorem log_two_eq {x : ℚ} {k : ℤ} (hx : 0 < x) (h1 : (2 : ℚ) ^ k ≤ x)
    (h2 : x < (2 : ℚ) ^ (k + 1)) : Int.log 2 x = k := by
  have hb : 1 < 2 := by norm_num
  have hle : k ≤ Int.log 2 x := (Int.zpow_le_iff_le_log hb hx).1 (by exact_mod_cast h1)
  have hlt : Int.log 2 x < k + 1 := (Int.lt_zpow_iff_log_lt hb hx).1 (by exact_mod_cast h2)
  omega

theorem roundFloat64_sub_le (x : ℚ) : |roundFloat64 x - x| ≤ |x| / 2 ^ 53 := by
  unfold roundFloat64
  split
  · next h => simp [h]
  · next h =>
    have hx : 0 < |x| := abs_pos.2 h
    have hpos : (0 : ℚ) < 2 ^ (Int.log 2 |x| - 52) := zpow_pos (by norm_num) _
    have hlog : (2 : ℚ) ^ Int.log 2 |x| ≤ |x| := by
      have := Int.zpow_log_le_self (b := 2) (by norm_num) hx
      exact_mod_cast this
    have hr := roundHalfEven_sub_le (x / 2 ^ (Int.log 2 |x| - 52))
    have hsplit : (2 : ℚ) ^ Int.log 2 |x| = 2 ^ (Int.log 2 |x| - 52) * 2 ^ (52 : ℤ) := by
      rw [← zpow_add₀ (by norm_num : (2 : ℚ) ≠ 0)]
      congr 1
      ring
    have heq : (roundHalfEven (x / 2 ^ (Int.log 2 |x| - 52)) : ℚ) * 2 ^ (Int.log 2 |x| - 52) - x
        = ((roundHalfEven (x / 2 ^ (Int.log 2 |x| - 52)) : ℚ) - x / 2 ^ (Int.log 2 |x| - 52))
          * 2 ^ (Int.log 2 |x| - 52) := by
      field_simp
    rw [heq, abs_mul, abs_of_pos hpos]
    have h52 : (2 : ℚ) ^ (52 : ℤ) = 2 ^ 52 := by norm_num
    rw [hsplit, h52] at hlog
    calc |(roundHalfEven (x / 2 ^ (Int.log 2 |x| - 52)) : ℚ) - x / 2 ^ (Int.log 2 |x| - 52)|
          * 2 ^ (Int.log 2 |x| - 52)
        ≤ 1 / 2 * 2 ^ (Int.log 2 |x| - 52) := by
          exact mul_le_mul_of_nonneg_right hr (le_of_lt hpos)
      _ ≤ |x| / 2 ^ 53 := by
          rw [le_div_iff₀ (by positivity)]
          nlinarith

theorem roundFloat64_intCast (n : ℤ) (hn : |n| < 2 ^ 53) : roundFloat64 (n : ℚ) = n := by
  unfold roundFloat64
  split
  · next h => exact h.symm
  · next h =>
    have hn0 : n ≠ 0 := by exact_mod_cast h
    have hx : (0 : ℚ) < |(n : ℚ)| := abs_pos.2 h
    have hb : 1 < 2 := by norm_num
    have h1 : (1 : ℚ) ≤ |(n : ℚ)| := by
      have : (1 : ℤ) ≤ |n| := Int.one_le_abs hn0
      exact_mod_cast this
    have hlo : 0 ≤ Int.log 2 |(n : ℚ)| :=
      (Int.zpow_le_iff_le_log hb hx).1 (by simpa using h1)
    have hhi : Int.log 2 |(n : ℚ)| < 53 := by
      apply (Int.lt_zpow_iff_log_lt hb hx).1
      have h53 : |(n : ℚ)| < 2 ^ 53 := by exact_mod_cast hn
      norm_num at h53 ⊢
      exact h53
    obtain ⟨k, hk⟩ : ∃ k : ℕ, Int.log 2 |(n : ℚ)| - 52 = -(k : ℤ) :=
      ⟨(52 - Int.log 2 |(n : ℚ)|).toNat, by omega⟩
    rw [hk]
    have hdiv : (n : ℚ) / 2 ^ (-(k : ℤ)) = ((n * 2 ^ k : ℤ) : ℚ) := by
      rw [zpow_neg, zpow_natCast]
      push_cast
      field_simp
    rw [hdiv, roundHalfEven_intCast, zpow_neg, zpow_natCast]
    push_cast
    field_simp

theorem roundFloat64_nonneg {x : ℚ} (hx : 0 ≤ x) : 0 ≤ roundFloat64 x := by
  have h := roundFloat64_sub_le x
  rw [abs_of_nonneg hx, abs_le] at h
  have : x / 2 ^ 53 ≤ x := by
    apply div_le_self hx
    norm_num
  linarith [h.1]

/-- Two roundings in a row: the quotient, then its product with 100. -/
theorem errorRate_sub_le (e t : ℤ) (he : 0 ≤ e) (he2 : e < 2 ^ 53) (ht : 0 < t)
    (ht2 : t < 2 ^ 53) :
    |errorRate e t - 100 * (e : ℚ) / t| ≤ 100 * (e : ℚ) / t / 2 ^ 51 := by
  unfold errorRate
  rw [if_pos ht, roundFloat64_intCast e (by rw [abs_of_nonneg he]; exact he2),
    roundFloat64_intCast t (by rw [abs_of_pos ht]; exact ht2)]
  have hq : (0 : ℚ) ≤ (e : ℚ) / t := by
    apply div_nonneg
    · exact_mod_cast he
    · exact_mod_cast le_of_lt ht
  have h1 := roundFloat64_sub_le ((e : ℚ) / t)
  have hx1 := roundFloat64_nonneg hq
  have h2 := roundFloat64_sub_le (roundFloat64 ((e : ℚ) / t) * 100)
  rw [abs_of_nonneg hq] at h1
  rw [abs_of_nonneg (mul_nonneg hx1 (by norm_num : (0 : ℚ) ≤ 100))] at h2
  rw [abs_le] at h1 h2 ⊢
  have e1 : 100 * (e : ℚ) / t = 100 * ((e : ℚ) / t) := by ring
  rw [e1]
  generalize (e : ℚ) / t = a at *
  generalize roundFloat64 a = x1 at *
  generalize roundFloat64 (x1 * 100) = x2 at *
  have hu : (0 : ℚ) < 2 ^ 53 := by positivity
  have hda : 0 ≤ a / 2 ^ 53 := div_nonneg hq (le_of_lt hu)
  have hsmall : a / 2 ^ 53 / 2 ^ 53 ≤ a / 2 ^ 53 := div_le_self hda (by norm_num)
  have hdx : x1 * 100 / 2 ^ 53 ≤ 200 * (a / 2 ^ 53) := by
    have hx1le : x1 ≤ a + a / 2 ^ 53 := by linarith [h1.2]
    have : x1 * 100 / 2 ^ 53 ≤ (a + a / 2 ^ 53) * 100 / 2 ^ 53 :=
      div_le_div_of_nonneg_right (by linarith) (le_of_lt hu)
    have hexp : (a + a / 2 ^ 53) * 100 / 2 ^ 53
        = 100 * (a / 2 ^ 53) + 100 * (a / 2 ^ 53 / 2 ^ 53) := by ring
    linarith
  have hdx0 : 0 ≤ x1 * 100 / 2 ^ 53 := div_nonneg (by linarith) (le_of_lt hu)
  have hd : 100 * a / 2 ^ 51 = 400 * (a / 2 ^ 53) := by norm_num; ring
  rw [hd]
  constructor
  · linarith [h1.1, h2.1]
  · linarith [h1.2, h2.2]

/-- The rounding of a positive `x` whose binade and nearest multiple are known. -/
theorem roundFloat64_eq_of_near {x : ℚ} {k n : ℤ} (hx : 0 < x) (h1 : (2 : ℚ) ^ k ≤ x)
    (h2 : x < (2 : ℚ) ^ (k + 1)) (hn : (n : ℚ) ≤ x / 2 ^ (k - 52))
    (hfrac : x / 2 ^ (k - 52) - n < 1 / 2) :
    roundFloat64 x = n * 2 ^ (k - 52) := by
  unfold roundFloat64
  rw [if_neg (ne_of_gt hx), abs_of_pos hx, log_two_eq hx h1 h2]
  have hfloor : ⌊x / 2 ^ (k - 52)⌋ = n := by
    rw [Int.floor_eq_iff]
    constructor
    · exact hn
    · linarith
  unfold roundHalfEven
  rw [hfloor, if_pos hfrac]

theorem errorRate_one_third : errorRate 1 3 = 2345624805922133 / 70368744177664 := by
  unfold errorRate
  rw [if_pos (by decide), roundFloat64_intCast 1 (by decide), roundFloat64_intCast 3 (by decide)]
  have hq : roundFloat64 (((1 : ℤ) : ℚ) / ((3 : ℤ) : ℚ))
      = (6004799503160661 : ℤ) * 2 ^ ((-2 : ℤ) - 52) := by
    apply roundFloat64_eq_of_near <;> norm_num
  rw [hq]
  have hp : roundFloat64 (((6004799503160661 : ℤ) : ℚ) * 2 ^ ((-2 : ℤ) - 52) * 100)
      = (4691249611844266 : ℤ) * 2 ^ ((5 : ℤ) - 52) := by
    apply roundFloat64_eq_of_near <;> norm_num
  rw [hp]
  norm_num

theorem isError_iff (r : ActivityLogRow) :
    r.isError = true ↔ ∃ c, r.response_code = some c ∧ 400 ≤ c := by
  unfold ActivityLogRow.isError
  cases r.response_code with
  | none => simp
  | some c => simp

theorem loadSummary_totalRequests (log : ActivityLog) (now : Int) :
    (loadSummary log now).totalRequests
      = ((log.filter (fun r => decide (now - 7200 ≤ r.timestamp))).length : Int) := rfl

theorem loadSummary_errorCount (log : ActivityLog) (now : Int) :
    (loadSummary log now).errorCount
      = ((log.filter (fun r => decide (now - 7200 ≤ r.timestamp ∧
          ∃ c, r.response_code = some c ∧ 400 ≤ c))).length : Int) := by
  simp only [loadSummary, List.filter_filter]
  congr 2
  apply List.filter_congr
  intro r _
  by_cases h : r.isError = true
  · simp [h, (isError_iff r).1 h, ActivityLogRow.since]
  · have h2 : ¬ ∃ c, r.response_code = some c ∧ 400 ≤ c := fun hc => h ((isError_iff r).2 hc)
    simp only [Bool.not_eq_true] at h
    simp only [h, Bool.false_and]
    symm
    rw [decide_eq_false_iff_not]
    exact fun hc => h2 hc.2

theorem loadSummary_errorCount_le (log : ActivityLog) (now : Int) :
    0 ≤ (loadSummary log now).errorCount ∧
      (loadSummary log now).errorCount ≤ (loadSummary log now).totalRequests := by
  constructor
  · exact Int.natCast_nonneg _
  · simp only [loadSummary]
    exact_mod_cast List.length_filter_le _ _

/-- C12 (amended). With `total` the number of events in the two-hour window and
`errors` the number of those with a response code of at least 400: the error rate
is 0 when `total = 0`; when `0 < total < 2 ^ 53` it is the `float64` obtained by
rounding `errors / total` and then the product with 100, and it differs from the
exact `100 * errors / total` by at most that value divided by `2 ^ 51`. -/
theorem summaryErrorRate_near (log : ActivityLog) (now : Int) (total errors : Int)
    (htotal : total = ((log.filter (fun r => decide (now - 7200 ≤ r.timestamp))).length : Int))
    (herrors : errors = ((log.filter (fun r => decide (now - 7200 ≤ r.timestamp ∧
      ∃ c, r.response_code = some c ∧ 400 ≤ c))).length : Int)) :
    (total = 0 → summaryErrorRate log now = 0) ∧
    (0 < total → total < 2 ^ 53 →
      |summaryErrorRate log now - 100 * (errors : ℚ) / total|
        ≤ 100 * (errors : ℚ) / total / 2 ^ 51) := by
  rw [← loadSummary_totalRequests] at htotal
  rw [← loadSummary_errorCount] at herrors
  obtain ⟨h0, hle⟩ := loadSummary_errorCount_le log now
  subst htotal herrors
  unfold summaryErrorRate
  constructor
  · intro hz
    simp [errorRate, hz]
  · intro hpos hlt
    exact errorRate_sub_le _ _ h0 (lt_of_le_of_lt hle hlt) hpos hlt

/-- C12 (counterexample). With one error among three events the error rate is the
`float64` 33.33333333333333 (`2345624805922133 / 2 ^ 46`), not `100 / 3`. -/
theorem summaryErrorRate_one_third :
    (loadSummary thirdLog 10000).totalRequests = 3 ∧
    (loadSummary thirdLog 10000).errorCount = 1 ∧
    summaryErrorRate thirdLog 10000 = 2345624805922133 / 70368744177664 ∧
    summaryErrorRate thirdLog 10000 ≠ 100 * 1 / 3 := by
  have ht : (loadSummary thirdLog 10000).totalRequests = 3 := by decide
  have he : (loadSummary thirdLog 10000).errorCount = 1 := by decide
  have hr : summaryErrorRate thirdLog 10000 = 2345624805922133 / 70368744177664 := by
    unfold summaryErrorRate
    rw [ht, he]
    exact errorRate_one_third
  refine ⟨ht, he, hr, ?_⟩
  rw [hr]
  norm_num

/-- C12 (amended), for one error among three events. -/
theorem summaryErrorRate_near_witness :
    (3 : Int) = ((thirdLog.filter (fun r => decide (10000 - 7200 ≤ r.timestamp))).length : Int) ∧
    (1 : Int) = ((thirdLog.filter (fun r => decide (10000 - 7200 ≤ r.timestamp ∧
      ∃ c, r.response_code = some c ∧ 400 ≤ c))).length : Int) ∧
    |summaryErrorRate thirdLog 10000 - 100 * ((1 : Int) : ℚ) / (3 : Int)|
      ≤ 100 * ((1 : Int) : ℚ) / (3 : Int) / 2 ^ 51 :=
  ⟨by decide, by decide,
   (summaryErrorRate_near thirdLog 10000 3 1 (by decide) (by decide)).2 (by decide) (by decide)⟩

/-! ### Order, failures, page -/

theorem liveJoined_map_snd (window : Int) (log : ActivityLog) (now : Int) :
    (liveJoined window log now).map Prod.snd
      = log.flatMap (fun a => (liveStats window log now).filterMap (fun s => liveJoin a s)) := by
  unfold liveJoined
  simp only [List.map_flatMap, List.map_filterMap]
  congr 1
  funext a
  congr 1
  funext s
  cases liveJoin a s <;> rfl

/-- C13 (amended). The rows of the live-activity result are the rows of the join,
ordered by timestamp descending: no row comes before a row of a later timestamp.
(The statement has no second sort key.) -/
theorem loadLiveUsers_ordered (log : ActivityLog) (now : Int) :
    (loadLiveUsers log now).Pairwise (fun x y => x.LastSeen ≥ y.LastSeen) ∧
    (loadLiveUsers log now).Perm ((liveJoined 3600 log now).map Prod.snd) := by
  constructor
  · exact List.sorted_insertionSort (fun x y : liveUser => x.LastSeen ≥ y.LastSeen) _
  · rw [liveJoined_map_snd]
    exact List.perm_insertionSort _ _

/-- C13 (counterexample). Alice (event id 1) and Bob (event id 2) are last seen in
the same second: the result lists the row of the lower id first, and both orders
of the two rows satisfy `ORDER BY a.timestamp DESC`. -/
theorem live_tie_lower_id_first :
    liveJoined 3600 twoTiedLog 10000
      = [(1, ⟨"Alice", 9700, "/message", 1, 0⟩), (2, ⟨"Bob", 9700, "/message", 1, 0⟩)] ∧
    loadLiveUsers twoTiedLog 10000
      = [⟨"Alice", 9700, "/message", 1, 0⟩, ⟨"Bob", 9700, "/message", 1, 0⟩] ∧
    IsLiveAnswer 3600 twoTiedLog 10000
      [(1, ⟨"Alice", 9700, "/message", 1, 0⟩), (2, ⟨"Bob", 9700, "/message", 1, 0⟩)] ∧
    IsLiveAnswer 3600 twoTiedLog 10000
      [(2, ⟨"Bob", 9700, "/message", 1, 0⟩), (1, ⟨"Alice", 9700, "/message", 1, 0⟩)] := by
  have hj : liveJoined 3600 twoTiedLog 10000
      = [(1, ⟨"Alice", 9700, "/message", 1, 0⟩), (2, ⟨"Bob", 9700, "/message", 1, 0⟩)] := by
    decide
  refine ⟨hj, by decide, ⟨?_, ?_⟩, ⟨?_, ?_⟩⟩
  · rw [hj]
  · unfold OrderedByTimestamp; decide
  · rw [hj]; exact List.Perm.swap _ _ _
  · unfold OrderedByTimestamp; decide

/-- C15 (failing input). When the second statement of `loadSummary` fails, the
function returns the error together with `totalRequests = 2`; when the scan of the
second endpoint row fails, together with both counts and the first endpoint row.
(`gatherPageData` then returns `pageData{}`; the three other loaders and a
failing first statement return no data.) -/
theorem loadSummary_partial_on_error :
    loadSummaryWith (some .students) aliceLog 10000
      = { totalRequests := 2, uniqueStudents := 0, endpointCounts := [], errorRate := 0,
          errorCount := 0, failed := true } ∧
    loadSummaryWith (some (.endpointScan 1)) aliceLog 10000
      = { totalRequests := 2, uniqueStudents := 1, endpointCounts := [⟨"/message", 1⟩],
          errorRate := 0, errorCount := 0, failed := true } ∧
    gatherPageData { noFaults with summary := some .students } aliceLog 10000
      = (emptyPage, true) ∧
    (∀ (log : ActivityLog) (now : Int),
      loadLiveUsersWith true log now = ([], true) ∧
      loadStudentProgressWith true log now = ([], true) ∧
      loadInactiveStudentsWith true log now = ([], true) ∧
      loadSummaryWith (some .total) log now
        = { totalRequests := 0, uniqueStudents := 0, endpointCounts := [], errorRate := 0,
            errorCount := 0, failed := true }) := by
  refine ⟨by decide, by decide, by decide, fun log now => ⟨rfl, rfl, rfl, rfl⟩⟩

/-- With every statement answered by the store, `gatherPageData` returns
`pageData{}` and an error as soon as the log holds a named event of the last
four hours: `loadStudentProgress` then has a row to scan. -/
theorem gatherPageData_named_event (log : ActivityLog) (now : Int) (e : ActivityLogRow)
    (he : e ∈ log) (n : String) (hname : e.name = some n) (hts : now - 14400 ≤ e.timestamp) :
    gatherPageData noFaults log now = (emptyPage, true) := by
  have hgroup : n ∈ groupNames (log.filter (fun r => r.name.isSome && r.since now 14400)) := by
    refine mem_groupNames.2 ⟨e, ?_, hname⟩
    simp [List.mem_filter, hname, he, since_of_le hts]
  have hq := mem_studentProgressQuery.2 ⟨n, hgroup, rfl⟩
  have hfail : loadStudentProgress log now = ([], true) := by
    rw [loadStudentProgress_eq]
    cases hl : studentProgressQuery log now with
    | nil => rw [hl] at hq; simp at hq
    | cons x xs => rfl
  simp [gatherPageData, noFaults, loadLiveUsersWith, loadSummaryWith, loadStudentProgressWith,
    hfail]

/-- C19 (failing input). Bob was last seen 20 minutes ago (and Alice 5 minutes
ago): the live query and the inactivity statement both yield Bob, but
`loadStudentProgress` and `loadInactiveStudents` fail at the `Scan` of their
times, and `gatherPageData` returns `pageData{}` and the error: no page holds
Bob in either list. -/
theorem page_not_built :
    (⟨"Bob", 8800, "/message", 1, 0⟩ : liveUser) ∈ loadLiveUsers bobLog 10000 ∧
    (⟨"Bob", 8800⟩ : inactiveStudent) ∈ inactiveStudentsQuery bobLog 10000 ∧
    loadStudentProgress bobLog 10000 = ([], true) ∧
    loadInactiveStudents bobLog 10000 = ([], true) ∧
    gatherPageData noFaults bobLog 10000 = (emptyPage, true) ∧
    (gatherPageData noFaults bobLog 10000).1.LiveUsers = [] ∧
    (gatherPageData noFaults bobLog 10000).1.InactiveStudents = [] := by
  decide

end Happy
